import Mathlib

/-!
Verification of the `publish_turntable.py` hook of tk-framework-unrealqt.

The hook is a Shotgun/Flow publish plugin driving Maya and Unreal.  The
development below gives a shallow embedding of its pure logic:

* Python string helpers (`str.split` with a maxsplit, `str.replace`,
  `re.sub`/`re.search` for the fixed patterns used by the hook, the posix
  flavour of the `os.path` helpers);
* the free function `_short_version`;
* `evaluate_unreal_project_path` and its four `{...}` placeholder
  replacements;
* the `validate`, `publish` and `finalize` lifecycle stages, with the host
  framework, the Maya session, the filesystem and the spawned subprocesses
  modelled as explicit oracle records; item/parent property bags are
  association lists, mutations thread an explicit state and raised Python
  exceptions become explicit outcome constructors.
-/

namespace Turntable

/-! ## Python string primitives -/

/-- First occurrence split: `breakFirst sep l = some (u, w)` when
`l = u ++ sep :: w` with `sep` not in `u`; `none` when `sep` is not in `l`. -/
def breakFirst (sep : Char) : List Char → Option (List Char × List Char)
  | [] => none
  | c :: r =>
    if c = sep then some ([], r)
    else (breakFirst sep r).map (fun p => (c :: p.1, p.2))

/-- Python `str.split(sep, maxsplit)` on character lists (single-char `sep`). -/
def pySplitMax (sep : Char) : Nat → List Char → List (List Char)
  | 0, l => [l]
  | n + 1, l =>
    match breakFirst sep l with
    | none => [l]
    | some (u, w) => u :: pySplitMax sep n w

/-- `_short_version` (module-level helper of publish_turntable.py):
`version.split(".", 2)`, keep `major.minor` when more than two parts came
back, otherwise return the version unchanged. -/
def shortVersion (version : String) : String :=
  let parts := pySplitMax '.' 2 version.data
  if parts.length > 2 then String.mk (List.intercalate ['.'] (parts.take 2))
  else version

theorem breakFirst_eq_some {sep : Char} :
    ∀ {l u w : List Char}, breakFirst sep l = some (u, w) →
      l = u ++ sep :: w ∧ sep ∉ u := by
  intro l
  induction l with
  | nil => intro u w h; simp [breakFirst] at h
  | cons c r ih =>
    intro u w h
    by_cases hc : c = sep
    · simp [breakFirst, hc] at h
      obtain ⟨hu, hr⟩ := h
      subst hu; subst hr
      simp [hc]
    · rw [breakFirst, if_neg hc] at h
      rcases Option.map_eq_some'.mp h with ⟨⟨u', w'⟩, hbf, hfw⟩
      obtain ⟨hl, hns⟩ := ih hbf
      have hu : c :: u' = u := congrArg Prod.fst hfw
      have hw : w' = w := congrArg Prod.snd hfw
      subst hu; subst hw
      constructor
      · simp [hl]
      · simp
        exact ⟨fun h' => hc h'.symm, hns⟩

theorem breakFirst_append {sep : Char} :
    ∀ {u : List Char} (w : List Char), sep ∉ u →
      breakFirst sep (u ++ sep :: w) = some (u, w) := by
  intro u
  induction u with
  | nil => intro w _; simp [breakFirst]
  | cons c r ih =>
    intro w hns
    simp at hns
    have hcs : ¬ c = sep := fun h' => hns.1 h'.symm
    simp [breakFirst, hcs, ih w hns.2]

theorem breakFirst_not_mem {sep : Char} :
    ∀ {l : List Char}, sep ∉ l → breakFirst sep l = none := by
  intro l
  induction l with
  | nil => intro _; rfl
  | cons c r ih =>
    intro h
    simp at h
    have hcs : ¬ c = sep := fun h' => h.1 h'.symm
    simp [breakFirst, hcs, ih h.2]

theorem shortVersion_idem (v : String) :
    shortVersion (shortVersion v) = shortVersion v := by
  rcases v with ⟨l⟩
  match h0 : breakFirst '.' l with
  | none =>
    have : shortVersion ⟨l⟩ = ⟨l⟩ := by
      simp [shortVersion, pySplitMax, h0]
    rw [this, this]
  | some (p0, r0) =>
    match h1 : breakFirst '.' r0 with
    | none =>
      have : shortVersion ⟨l⟩ = ⟨l⟩ := by
        simp [shortVersion, pySplitMax, h0, h1]
      rw [this, this]
    | some (p1, r1) =>
      obtain ⟨_hl0, hn0⟩ := breakFirst_eq_some h0
      obtain ⟨_hl1, hn1⟩ := breakFirst_eq_some h1
      have hres : shortVersion ⟨l⟩ = ⟨p0 ++ '.' :: p1⟩ := by
        simp [shortVersion, pySplitMax, h0, h1, List.intercalate]
      rw [hres]
      have hb0 : breakFirst '.' (p0 ++ '.' :: p1) = some (p0, p1) :=
        breakFirst_append p1 hn0
      have hb1 : breakFirst '.' p1 = none := breakFirst_not_mem hn1
      simp [shortVersion, pySplitMax, hb0, hb1]

/-- C9: `_short_version` is idempotent, `_short_version "5.0.2" = "5.0"` and
`_short_version "5" = "5"`. -/
theorem short_version_idempotent_prefix_stable :
    (∀ v : String, shortVersion (shortVersion v) = shortVersion v) ∧
    shortVersion "5.0.2" = "5.0" ∧ shortVersion "5" = "5" :=
  ⟨shortVersion_idem, by decide, by decide⟩

/-! ## Python `str.replace`

`evaluate_unreal_project_path` chains four `str.replace` calls whose patterns
all have the shape `'{' :: tail`.  `replaceCore p0 pt rep s` is Python
`s.replace(p0 :: pt, rep)`: scan left to right, replace each non-overlapping
occurrence. -/

def replaceCoreAux (p0 : Char) (pt rep : List Char) : Nat → List Char → List Char
  | 0, s => s
  | _ + 1, [] => []
  | n + 1, c :: rest =>
    if c = p0 ∧ pt.isPrefixOf rest then
      rep ++ replaceCoreAux p0 pt rep n (rest.drop pt.length)
    else
      c :: replaceCoreAux p0 pt rep n rest

def replaceCore (p0 : Char) (pt rep s : List Char) : List Char :=
  replaceCoreAux p0 pt rep s.length s

theorem replaceCoreAux_fuel (p0 : Char) (pt rep : List Char) :
    ∀ (n m : Nat) (s : List Char), s.length ≤ n → s.length ≤ m →
      replaceCoreAux p0 pt rep n s = replaceCoreAux p0 pt rep m s := by
  intro n
  induction n with
  | zero =>
    intro m s hs _
    have : s = [] := List.length_eq_zero.mp (Nat.le_zero.mp hs)
    subst this
    cases m <;> rfl
  | succ n ih =>
    intro m s hsn hsm
    match s, m with
    | [], 0 => rfl
    | [], _ + 1 => rfl
    | c :: rest, 0 => simp at hsm
    | c :: rest, m + 1 =>
      simp at hsn hsm
      by_cases hm : c = p0 ∧ pt.isPrefixOf rest
      · rw [replaceCoreAux, replaceCoreAux, if_pos hm, if_pos hm]
        have hd : (rest.drop pt.length).length ≤ rest.length := by
          simp [List.length_drop]
        rw [ih m (rest.drop pt.length) (le_trans hd hsn) (le_trans hd hsm)]
      · rw [replaceCoreAux, replaceCoreAux, if_neg hm, if_neg hm, ih m rest hsn hsm]

theorem replaceCore_nil (p0 : Char) (pt rep : List Char) :
    replaceCore p0 pt rep [] = [] := rfl

theorem replaceCore_cons_pos {p0 c : Char} {pt rest : List Char} (rep : List Char)
    (hc : c = p0) (hp : pt <+: rest) :
    replaceCore p0 pt rep (c :: rest) =
      rep ++ replaceCore p0 pt rep (rest.drop pt.length) := by
  have hb : pt.isPrefixOf rest := List.isPrefixOf_iff_prefix.mpr hp
  show replaceCoreAux p0 pt rep (rest.length + 1) (c :: rest) = _
  rw [replaceCoreAux, if_pos ⟨hc, hb⟩]
  have hd : (rest.drop pt.length).length ≤ rest.length := by
    simp [List.length_drop]
  rw [replaceCoreAux_fuel p0 pt rep rest.length (rest.drop pt.length).length
    (rest.drop pt.length) hd (le_refl _)]
  rfl

theorem replaceCore_cons_neg {p0 c : Char} {pt rest : List Char} (rep : List Char)
    (h : ¬ (c = p0 ∧ pt <+: rest)) :
    replaceCore p0 pt rep (c :: rest) = c :: replaceCore p0 pt rep rest := by
  have hb : ¬ (c = p0 ∧ pt.isPrefixOf rest = true) := by
    intro hx
    exact h ⟨hx.1, List.isPrefixOf_iff_prefix.mp hx.2⟩
  show replaceCoreAux p0 pt rep (rest.length + 1) (c :: rest) = _
  rw [replaceCoreAux, if_neg hb]
  rfl

theorem replaceCore_match (p0 : Char) (pt rep w : List Char) :
    replaceCore p0 pt rep (p0 :: (pt ++ w)) = rep ++ replaceCore p0 pt rep w := by
  rw [replaceCore_cons_pos rep rfl (List.prefix_append pt w), List.drop_left]

/-- `l` has no occurrence of the character `p0`. -/
def FreeOf (p0 : Char) (l : List Char) : Prop := ∀ c ∈ l, c ≠ p0

instance (p0 : Char) (l : List Char) : Decidable (FreeOf p0 l) :=
  List.decidableBAll _ l

/-- Replacement scans straight through a stretch of characters that cannot
start the pattern. -/
theorem replaceCore_skip {p0 : Char} (pt rep : List Char) :
    ∀ {u : List Char} (w : List Char), FreeOf p0 u →
      replaceCore p0 pt rep (u ++ w) = u ++ replaceCore p0 pt rep w := by
  intro u
  induction u with
  | nil => intro w _; simp
  | cons c u ih =>
    intro w hf
    have hc : c ≠ p0 := hf c (by simp)
    rw [List.cons_append, replaceCore_cons_neg rep (fun hm => hc hm.1),
      ih w (fun a ha => hf a (by simp [ha])), List.cons_append]

theorem not_prefix_append {ta tb : List Char} (hab : ¬ ta <+: tb) (hba : ¬ tb <+: ta)
    (x : List Char) : ¬ ta <+: tb ++ x := by
  intro h
  rcases le_or_lt ta.length tb.length with hle | hlt
  · exact hab (List.prefix_of_prefix_length_le h (List.prefix_append tb x) hle)
  · exact hba (List.prefix_of_prefix_length_le (List.prefix_append tb x) h (le_of_lt hlt))

/-- A template is well formed for a set of placeholder tails when every
occurrence of the opening character starts an occurrence of one of the
placeholders. -/
def WfT (p0 : Char) (toks : List (List Char)) : List Char → Prop
  | [] => True
  | c :: rest => (c = p0 → ∃ ta ∈ toks, ta <+: rest) ∧ WfT p0 toks rest

theorem WfT_cons {p0 : Char} {toks : List (List Char)} {c : Char} {rest : List Char} :
    WfT p0 toks (c :: rest) ↔
      (c = p0 → ∃ ta ∈ toks, ta <+: rest) ∧ WfT p0 toks rest := Iff.rfl

instance instDecWfT (p0 : Char) (toks : List (List Char)) :
    (s : List Char) → Decidable (WfT p0 toks s)
  | [] => .isTrue trivial
  | c :: rest =>
    haveI := instDecWfT p0 toks rest
    decidable_of_iff _ WfT_cons.symm

theorem WfT_suffix {p0 : Char} {toks : List (List Char)} :
    ∀ (u : List Char) {w : List Char}, WfT p0 toks (u ++ w) → WfT p0 toks w := by
  intro u
  induction u with
  | nil => intro w h; exact h
  | cons c u ih => intro w h; exact ih (WfT_cons.mp h).2

theorem WfT_append {p0 : Char} {toks : List (List Char)} :
    ∀ {u w : List Char}, FreeOf p0 u → WfT p0 toks w → WfT p0 toks (u ++ w) := by
  intro u
  induction u with
  | nil => intro w _ h; exact h
  | cons c u ih =>
    intro w hf hw
    refine WfT_cons.mpr ⟨fun hc => absurd hc (hf c (by simp)), ?_⟩
    exact ih (fun a ha => hf a (by simp [ha])) hw

/-- The placeholder-set hypotheses used throughout: placeholder tails are
nonempty, contain no opening character, and none is a prefix of another. -/
structure GoodToks (p0 : Char) (toks : List (List Char)) : Prop where
  nonempty : ∀ ta ∈ toks, ta ≠ []
  free : ∀ ta ∈ toks, FreeOf p0 ta
  nonprefix : ∀ ta ∈ toks, ∀ tb ∈ toks, ta ≠ tb → ¬ ta <+: tb

/-- Replacing one placeholder keeps the template well formed. -/
theorem WfT_replaceCore {p0 : Char} {toks : List (List Char)} (G : GoodToks p0 toks)
    {ta va : List Char} (hta : ta ∈ toks) (hva : FreeOf p0 va) :
    ∀ (n : Nat) (s : List Char), s.length ≤ n → WfT p0 toks s →
      WfT p0 toks (replaceCore p0 ta va s) := by
  intro n
  induction n with
  | zero =>
    intro s hs _
    have : s = [] := List.length_eq_zero.mp (Nat.le_zero.mp hs)
    subst this
    rw [replaceCore_nil]; trivial
  | succ n ih =>
    intro s hs hwf
    match s with
    | [] => rw [replaceCore_nil]; trivial
    | c :: rest =>
      by_cases hm : c = p0 ∧ ta <+: rest
      · obtain ⟨hc, hp⟩ := hm
        obtain ⟨w, hw⟩ := hp
        rw [replaceCore_cons_pos va hc ⟨w, hw⟩, ← hw, List.drop_left]
        have hwfw : WfT p0 toks w :=
          WfT_suffix ta (hw ▸ (WfT_cons.mp hwf).2)
        have hlw : w.length ≤ n := by
          have : rest.length ≤ n := by simpa using hs
          have := congrArg List.length hw
          simp at this
          omega
        exact WfT_append hva (ih w hlw hwfw)
      · rw [replaceCore_cons_neg va hm]
        refine WfT_cons.mpr ⟨?_, ih rest (by simpa using hs) (WfT_cons.mp hwf).2⟩
        intro hc
        obtain ⟨tc, htc, hpc⟩ := (WfT_cons.mp hwf).1 hc
        have hne : tc ≠ ta := by
          rintro rfl; exact hm ⟨hc, hpc⟩
        obtain ⟨w, hw⟩ := hpc
        rw [← hw, replaceCore_skip ta va w (G.free tc htc)]
        exact ⟨tc, htc, List.prefix_append _ _⟩

/-- Two distinct placeholders commute on well-formed templates when their
replacement values cannot start a placeholder. -/
theorem replaceCore_comm {p0 : Char} {toks : List (List Char)} (G : GoodToks p0 toks)
    {ta tb va vb : List Char} (hta : ta ∈ toks) (htb : tb ∈ toks) (hne : ta ≠ tb)
    (hva : FreeOf p0 va) (hvb : FreeOf p0 vb) :
    ∀ (n : Nat) (s : List Char), s.length ≤ n → WfT p0 toks s →
      replaceCore p0 ta va (replaceCore p0 tb vb s) =
        replaceCore p0 tb vb (replaceCore p0 ta va s) := by
  intro n
  induction n with
  | zero =>
    intro s hs _
    have : s = [] := List.length_eq_zero.mp (Nat.le_zero.mp hs)
    subst this
    rw [replaceCore_nil, replaceCore_nil, replaceCore_nil]
  | succ n ih =>
    intro s hs hwf
    match s with
    | [] => rw [replaceCore_nil, replaceCore_nil, replaceCore_nil]
    | c :: rest =>
      have hrest : rest.length ≤ n := by simpa using hs
      by_cases hma : c = p0 ∧ ta <+: rest
      · obtain ⟨hc, hpa⟩ := hma
        obtain ⟨w, hw⟩ := hpa
        have hnb : ¬ tb <+: rest := by
          intro hpb
          rcases List.prefix_or_prefix_of_prefix ⟨w, hw⟩ hpb with h' | h'
          · exact G.nonprefix ta hta tb htb hne h'
          · exact G.nonprefix tb htb ta hta (Ne.symm hne) h'
        have hwfw : WfT p0 toks w := WfT_suffix ta (hw ▸ (WfT_cons.mp hwf).2)
        have hlw : w.length ≤ n := by
          have := congrArg List.length hw
          simp at this
          omega
        rw [hc, replaceCore_cons_neg vb (fun hm' => hnb hm'.2), ← hw,
          replaceCore_skip tb vb w (G.free ta hta), replaceCore_match,
          replaceCore_match, replaceCore_skip tb vb (replaceCore p0 ta va w) hva]
        rw [ih w hlw hwfw]
      · by_cases hmb : c = p0 ∧ tb <+: rest
        · obtain ⟨hc, hpb⟩ := hmb
          obtain ⟨w, hw⟩ := hpb
          have hwfw : WfT p0 toks w := WfT_suffix tb (hw ▸ (WfT_cons.mp hwf).2)
          have hlw : w.length ≤ n := by
            have := congrArg List.length hw
            simp at this
            omega
          rw [hc, replaceCore_cons_neg va (fun hm' => hma ⟨hc, hm'.2⟩), ← hw,
            replaceCore_skip ta va w (G.free tb htb), replaceCore_match,
            replaceCore_match, replaceCore_skip ta va (replaceCore p0 tb vb w) hvb]
          rw [ih w hlw hwfw]
        · by_cases hc : c = p0
          · obtain ⟨tc, htc, hpc⟩ := (WfT_cons.mp hwf).1 hc
            have hca : tc ≠ ta := by rintro rfl; exact hma ⟨hc, hpc⟩
            have hcb : tc ≠ tb := by rintro rfl; exact hmb ⟨hc, hpc⟩
            obtain ⟨w, hw⟩ := hpc
            have hRb : replaceCore p0 tb vb rest = tc ++ replaceCore p0 tb vb w := by
              rw [← hw, replaceCore_skip tb vb w (G.free tc htc)]
            have hRa : replaceCore p0 ta va rest = tc ++ replaceCore p0 ta va w := by
              rw [← hw, replaceCore_skip ta va w (G.free tc htc)]
            have hnpa : ¬ ta <+: replaceCore p0 tb vb rest := by
              rw [hRb]
              exact not_prefix_append (G.nonprefix ta hta tc htc (Ne.symm hca))
                (G.nonprefix tc htc ta hta hca) _
            have hnpb : ¬ tb <+: replaceCore p0 ta va rest := by
              rw [hRa]
              exact not_prefix_append (G.nonprefix tb htb tc htc (Ne.symm hcb))
                (G.nonprefix tc htc tb htb hcb) _
            rw [replaceCore_cons_neg vb (fun hm' => hmb ⟨hc, hm'.2⟩),
              replaceCore_cons_neg va (fun hm' => hma ⟨hc, hm'.2⟩),
              replaceCore_cons_neg va (fun hm' => hnpa hm'.2),
              replaceCore_cons_neg vb (fun hm' => hnpb hm'.2),
              ih rest hrest (WfT_cons.mp hwf).2]
          · rw [replaceCore_cons_neg vb (fun hm' => hc hm'.1),
              replaceCore_cons_neg va (fun hm' => hc hm'.1),
              replaceCore_cons_neg va (fun hm' => hc hm'.1),
              replaceCore_cons_neg vb (fun hm' => hc hm'.1),
              ih rest hrest (WfT_cons.mp hwf).2]

/-- An occurrence of a placeholder inside `u ++ x` with `u` free of the
opening character lies inside `x`. -/
theorem infix_through_free {p0 : Char} {p : List Char} :
    ∀ {u x : List Char}, FreeOf p0 u → (p0 :: p) <:+: u ++ x → (p0 :: p) <:+: x := by
  intro u
  induction u with
  | nil => intro x _ h; simpa using h
  | cons c u ih =>
    intro x hf hinf
    rcases List.infix_cons_iff.mp hinf with hpre | hinf'
    · obtain ⟨t, ht⟩ := hpre
      have hc : p0 = c := by
        have := congrArg (fun l => l.head?) ht
        simpa using this
      exact absurd hc.symm (hf c (by simp))
    · exact ih (fun a ha => hf a (by simp [ha])) hinf'

theorem prefix_cons_head {a b : Char} {l₁ l₂ : List Char} (h : a :: l₁ <+: b :: l₂) :
    b = a ∧ l₁ <+: l₂ := by
  obtain ⟨t, ht⟩ := h
  simp at ht
  exact ⟨ht.1.symm, ⟨t, ht.2⟩⟩

/-- After replacing a placeholder, the template has no occurrence of it. -/
theorem replaceCore_no_tok {p0 : Char} {toks : List (List Char)} (G : GoodToks p0 toks)
    {ta va : List Char} (hta : ta ∈ toks) (hva : FreeOf p0 va) :
    ∀ (n : Nat) (s : List Char), s.length ≤ n → WfT p0 toks s →
      ¬ (p0 :: ta) <:+: replaceCore p0 ta va s := by
  intro n
  induction n with
  | zero =>
    intro s hs _
    have : s = [] := List.length_eq_zero.mp (Nat.le_zero.mp hs)
    subst this
    rw [replaceCore_nil]
    simp
  | succ n ih =>
    intro s hs hwf
    match s with
    | [] => rw [replaceCore_nil]; simp
    | c :: rest =>
      have hrest : rest.length ≤ n := by simpa using hs
      by_cases hm : c = p0 ∧ ta <+: rest
      · obtain ⟨hc, hpa⟩ := hm
        obtain ⟨w, hw⟩ := hpa
        have hwfw : WfT p0 toks w := WfT_suffix ta (hw ▸ (WfT_cons.mp hwf).2)
        have hlw : w.length ≤ n := by
          have := congrArg List.length hw
          simp at this
          omega
        rw [replaceCore_cons_pos va hc ⟨w, hw⟩, ← hw, List.drop_left]
        intro h
        exact ih w hlw hwfw (infix_through_free hva h)
      · rw [replaceCore_cons_neg va hm]
        intro h
        rcases List.infix_cons_iff.mp h with hpre | hinf
        · obtain ⟨hc, hp⟩ := prefix_cons_head hpre
          obtain ⟨tc, htc, hpc⟩ := (WfT_cons.mp hwf).1 hc
          have hca : tc ≠ ta := by rintro rfl; exact hm ⟨hc, hpc⟩
          obtain ⟨w, hw⟩ := hpc
          rw [← hw, replaceCore_skip ta va w (G.free tc htc)] at hp
          exact not_prefix_append (G.nonprefix ta hta tc htc (Ne.symm hca))
            (G.nonprefix tc htc ta hta hca) _ hp
        · exact ih rest hrest (WfT_cons.mp hwf).2 hinf

/-- Replacing a different placeholder cannot create an occurrence of a
placeholder that was absent. -/
theorem replaceCore_pres_no_tok {p0 : Char} {toks : List (List Char)} (G : GoodToks p0 toks)
    {ta tb vb : List Char} (hta : ta ∈ toks) (htb : tb ∈ toks) (hne : tb ≠ ta)
    (hvb : FreeOf p0 vb) :
    ∀ (n : Nat) (s : List Char), s.length ≤ n → WfT p0 toks s →
      ¬ (p0 :: ta) <:+: s → ¬ (p0 :: ta) <:+: replaceCore p0 tb vb s := by
  intro n
  induction n with
  | zero =>
    intro s hs _ _
    have : s = [] := List.length_eq_zero.mp (Nat.le_zero.mp hs)
    subst this
    rw [replaceCore_nil]
    simp
  | succ n ih =>
    intro s hs hwf hno
    match s with
    | [] => rw [replaceCore_nil]; simp
    | c :: rest =>
      have hrest : rest.length ≤ n := by simpa using hs
      have hnorest : ¬ (p0 :: ta) <:+: rest := fun h' =>
        hno (List.infix_cons_iff.mpr (Or.inr h'))
      by_cases hm : c = p0 ∧ tb <+: rest
      · obtain ⟨hc, hpb⟩ := hm
        obtain ⟨w, hw⟩ := hpb
        have hwfw : WfT p0 toks w := WfT_suffix tb (hw ▸ (WfT_cons.mp hwf).2)
        have hlw : w.length ≤ n := by
          have := congrArg List.length hw
          simp at this
          omega
        have hnow : ¬ (p0 :: ta) <:+: w := by
          intro h'
          exact hnorest (h'.trans (hw ▸ (List.suffix_append tb w).isInfix))
        rw [replaceCore_cons_pos vb hc ⟨w, hw⟩, ← hw, List.drop_left]
        intro h
        exact ih w hlw hwfw hnow (infix_through_free hvb h)
      · rw [replaceCore_cons_neg vb hm]
        intro h
        rcases List.infix_cons_iff.mp h with hpre | hinf
        · obtain ⟨hc, hp⟩ := prefix_cons_head hpre
          obtain ⟨tc, htc, hpc⟩ := (WfT_cons.mp hwf).1 hc
          obtain ⟨w, hw⟩ := hpc
          have hca : tc ≠ ta := by
            rintro rfl
            apply hno
            apply List.IsPrefix.isInfix
            refine ⟨w, ?_⟩
            rw [hc, List.cons_append, hw]
          rw [← hw, replaceCore_skip tb vb w (G.free tc htc)] at hp
          exact not_prefix_append (G.nonprefix ta hta tc htc (Ne.symm hca))
            (G.nonprefix tc htc ta hta hca) _ hp
        · exact ih rest hrest (WfT_cons.mp hwf).2 hnorest hinf

/-! ## Chained replacements -/

/-- Apply a list of `(tail, value)` replacements left to right; each entry
stands for Python `s = s.replace(p0 :: tail, value)`. -/
def applyRepls (p0 : Char) : List (List Char × List Char) → List Char → List Char
  | [], s => s
  | (ta, va) :: rest, s => applyRepls p0 rest (replaceCore p0 ta va s)

/-- Hypotheses carried along a replacement chain: every pattern tail belongs
to the placeholder set and every value is free of the opening character. -/
def ReplsOk (p0 : Char) (toks : List (List Char)) (rs : List (List Char × List Char)) : Prop :=
  ∀ pr ∈ rs, pr.1 ∈ toks ∧ FreeOf p0 pr.2

theorem WfT_applyRepls {p0 : Char} {toks : List (List Char)} (G : GoodToks p0 toks) :
    ∀ (rs : List (List Char × List Char)), ReplsOk p0 toks rs →
      ∀ (s : List Char), WfT p0 toks s → WfT p0 toks (applyRepls p0 rs s) := by
  intro rs
  induction rs with
  | nil => intro _ s h; exact h
  | cons x rest ih =>
    intro hok s hwf
    rcases x with ⟨ta, va⟩
    have hx := hok (ta, va) (by simp)
    exact ih (fun pr hpr => hok pr (by simp [hpr]))
      (replaceCore p0 ta va s)
      (WfT_replaceCore G hx.1 hx.2 s.length s (le_refl _) hwf)

/-- The chained replacement is invariant under reordering of the
replacement list (on well-formed templates, for placeholder-free values). -/
theorem applyRepls_perm {p0 : Char} {toks : List (List Char)} (G : GoodToks p0 toks) :
    ∀ {rs₁ rs₂ : List (List Char × List Char)}, rs₁.Perm rs₂ →
      ReplsOk p0 toks rs₁ → rs₁.Pairwise (fun pr qr => pr.1 ≠ qr.1) →
      ∀ (s : List Char), WfT p0 toks s → applyRepls p0 rs₁ s = applyRepls p0 rs₂ s := by
  intro rs₁ rs₂ hperm
  induction hperm with
  | nil => intro _ _ s _; rfl
  | cons x hperm ih =>
    intro hok hpw s hwf
    rcases x with ⟨ta, va⟩
    have hx := hok (ta, va) (by simp)
    show applyRepls p0 _ (replaceCore p0 ta va s) = applyRepls p0 _ (replaceCore p0 ta va s)
    exact ih (fun pr hpr => hok pr (by simp [hpr])) (List.Pairwise.of_cons hpw)
      (replaceCore p0 ta va s)
      (WfT_replaceCore G hx.1 hx.2 s.length s (le_refl _) hwf)
  | swap x y l =>
    intro hok hpw s hwf
    rcases x with ⟨ta, va⟩
    rcases y with ⟨tb, vb⟩
    have hxm := hok (tb, vb) (by simp)
    have hym := hok (ta, va) (by simp)
    have hne : tb ≠ ta := by
      have := (List.pairwise_cons.mp hpw).1 (ta, va) (by simp)
      simpa using this
    show applyRepls p0 l (replaceCore p0 ta va (replaceCore p0 tb vb s)) =
      applyRepls p0 l (replaceCore p0 tb vb (replaceCore p0 ta va s))
    rw [replaceCore_comm G hym.1 hxm.1 (Ne.symm hne) hym.2 hxm.2 s.length s (le_refl _) hwf]
  | trans h₁ h₂ ih₁ ih₂ =>
    intro hok hpw s hwf
    rw [ih₁ hok hpw s hwf]
    refine ih₂ ?_ ?_ s hwf
    · exact fun pr hpr => hok pr (h₁.mem_iff.mpr hpr)
    · exact (h₁.pairwise_iff (fun h => Ne.symm h)).mp hpw

/-- No placeholder applied somewhere in the chain survives in the result. -/
theorem applyRepls_no_tok {p0 : Char} {toks : List (List Char)} (G : GoodToks p0 toks) :
    ∀ (rs : List (List Char × List Char)), ReplsOk p0 toks rs →
      rs.Pairwise (fun pr qr => pr.1 ≠ qr.1) →
      ∀ (s : List Char), WfT p0 toks s →
      ∀ pr ∈ rs, ¬ (p0 :: pr.1) <:+: applyRepls p0 rs s := by
  have pres : ∀ {ta : List Char}, ta ∈ toks →
      ∀ (rs : List (List Char × List Char)), ReplsOk p0 toks rs →
        (∀ qr ∈ rs, qr.1 ≠ ta) →
        ∀ (s : List Char), WfT p0 toks s → ¬ (p0 :: ta) <:+: s →
          ¬ (p0 :: ta) <:+: applyRepls p0 rs s := by
    intro ta hta rs
    induction rs with
    | nil => intro _ _ s _ hno; exact hno
    | cons x rest ih =>
      intro hok hneq s hwf hno
      rcases x with ⟨tb, vb⟩
      have hx := hok (tb, vb) (by simp)
      have hbna : tb ≠ ta := hneq (tb, vb) (by simp)
      exact ih (fun pr hpr => hok pr (by simp [hpr]))
        (fun qr hqr => hneq qr (by simp [hqr]))
        (replaceCore p0 tb vb s)
        (WfT_replaceCore G hx.1 hx.2 s.length s (le_refl _) hwf)
        (replaceCore_pres_no_tok G hta hx.1 hbna hx.2 s.length s (le_refl _) hwf hno)
  intro rs
  induction rs with
  | nil => intro _ _ s _ pr hpr; simp at hpr
  | cons x rest ih =>
    intro hok hpw s hwf pr hpr
    rcases x with ⟨tb, vb⟩
    have hx := hok (tb, vb) (by simp)
    have hwf' : WfT p0 toks (replaceCore p0 tb vb s) :=
      WfT_replaceCore G hx.1 hx.2 s.length s (le_refl _) hwf
    rcases List.mem_cons.mp hpr with hpr | hpr
    · subst hpr
      show ¬ (p0 :: tb) <:+: applyRepls p0 rest (replaceCore p0 tb vb s)
      refine pres hx.1 rest (fun qr hqr => hok qr (by simp [hqr])) ?_ _ hwf' ?_
      · intro qr hqr
        have := (List.pairwise_cons.mp hpw).1 qr hqr
        exact fun h => this h.symm
      · exact replaceCore_no_tok G hx.1 hx.2 s.length s (le_refl _) hwf
    · exact ih (fun qr hqr => hok qr (by simp [hqr])) (List.Pairwise.of_cons hpw)
        (replaceCore p0 tb vb s) hwf' pr hpr

/-- Python `s.replace(pat, rep)`.  For the (unused here) empty pattern, Python
interleaves the replacement around every character. -/
def pyReplace (s pat rep : String) : String :=
  match pat.data with
  | [] => String.mk (rep.data ++ (s.data.map (fun c => c :: rep.data)).flatten)
  | p :: ps => String.mk (replaceCore p ps rep.data s.data)

/-- Python `str.split(sep)` (no maxsplit) for a single-character separator;
at most `l.length` splits can occur, so the bounded splitter with that budget
agrees with the unbounded one. -/
def pySplitAll (sep : Char) (l : List Char) : List (List Char) :=
  pySplitMax sep l.length l

/-- Modelled from the Python standard library: `posixpath.normpath`, the posix
flavour of the external `os.path.normpath` collaborator the hook calls on the
evaluated project path. -/
def posixNormpath (path : String) : String :=
  match path.data with
  | [] => "."
  | cs =>
    let initialSlashes : Nat :=
      if cs.take 1 = ['/'] then
        if cs.take 2 = ['/', '/'] ∧ cs.take 3 ≠ ['/', '/', '/'] then 2 else 1
      else 0
    let comps := pySplitAll '/' cs
    let newComps := comps.foldl
      (fun acc comp =>
        if comp = [] ∨ comp = ['.'] then acc
        else if comp ≠ ['.', '.'] ∨ (initialSlashes = 0 ∧ acc = []) ∨
            acc.getLast? = some ['.', '.'] then
          acc ++ [comp]
        else if acc ≠ [] then acc.dropLast
        else acc) []
    let joined := List.intercalate ['/'] newComps
    let out := List.replicate initialSlashes '/' ++ joined
    if out = [] then "." else String.mk out

/-- `".".join(unreal_engine_version.split(".")[:2])` from
`evaluate_unreal_project_path`. -/
def projectShortVersion (v : String) : String :=
  String.mk (List.intercalate ['.'] ((pySplitAll '.' v.data).take 2))

/-- `evaluate_unreal_project_path` of the publish plugin.  The engine lookups
are external collaborators and enter as parameters: `config_dir` is
`os.path.dirname(hooks_folder)`, `engine_location` is `engine.disk_location`,
`fw_location` is the loaded framework's `disk_location`, and `normpath` is
`os.path.normpath`.  Falsy (empty) template or version returns `None`. -/
def evaluate_unreal_project_path (normpath : String → String)
    (config_dir engine_location fw_location : String)
    (unreal_project_path_template unreal_engine_version : String) : Option String :=
  if unreal_project_path_template = "" then none
  else if unreal_engine_version = "" then none
  else
    let short_version := projectShortVersion unreal_engine_version
    some (normpath
      (pyReplace (pyReplace (pyReplace (pyReplace unreal_project_path_template
        "{config}" config_dir) "{engine}" engine_location)
        "{unreal_engine_version}" short_version) "{self}" fw_location))

/-- The tails of the four placeholder tokens `{config}`, `{engine}`,
`{unreal_engine_version}`, `{self}` (each token is `'{' :: tail`). -/
def projectTokens : List (List Char) :=
  ["config\x7d".data, "engine\x7d".data, "unreal_engine_version\x7d".data, "self\x7d".data]

/-- The four replacements of `evaluate_unreal_project_path` in source order. -/
def projectPathRepls (config_dir engine_location short_version fw_location : String) :
    List (List Char × List Char) :=
  [("config\x7d".data, config_dir.data),
   ("engine\x7d".data, engine_location.data),
   ("unreal_engine_version\x7d".data, short_version.data),
   ("self\x7d".data, fw_location.data)]

theorem evaluate_eq_applyRepls (normpath : String → String)
    (config_dir engine_location fw_location tmpl ver : String)
    (h1 : tmpl ≠ "") (h2 : ver ≠ "") :
    evaluate_unreal_project_path normpath config_dir engine_location fw_location tmpl ver =
      some (normpath (String.mk (applyRepls '{'
        (projectPathRepls config_dir engine_location (projectShortVersion ver) fw_location)
        tmpl.data))) := by
  rw [evaluate_unreal_project_path, if_neg h1, if_neg h2]
  rfl

theorem goodToks_project : GoodToks '{' projectTokens := by
  refine ⟨?_, ?_, ?_⟩ <;> decide

theorem projectPathRepls_pairwise (c e v f : String) :
    List.Pairwise (fun (pr qr : List Char × List Char) => pr.1 ≠ qr.1)
      (projectPathRepls c e v f) := by
  have h : ((projectPathRepls c e v f).map Prod.fst).Pairwise (fun a b => a ≠ b) := by
    rw [projectPathRepls]
    simp only [List.map_cons, List.map_nil]
    decide
  exact List.pairwise_map.mp h

theorem projectPathRepls_ok (c e v f : String)
    (hc : FreeOf '{' c.data) (he : FreeOf '{' e.data)
    (hv : FreeOf '{' v.data) (hf : FreeOf '{' f.data) :
    ReplsOk '{' projectTokens (projectPathRepls c e v f) := by
  intro pr hpr
  rw [projectPathRepls] at hpr
  simp only [List.mem_cons, List.not_mem_nil, or_false] at hpr
  rcases hpr with h | h | h | h
  · rw [h]; exact ⟨by rw [projectTokens]; simp, hc⟩
  · rw [h]; exact ⟨by rw [projectTokens]; simp, he⟩
  · rw [h]; exact ⟨by rw [projectTokens]; simp, hv⟩
  · rw [h]; exact ⟨by rw [projectTokens]; simp, hf⟩

/-- C8 (amended): for a template in which every `{` opens one of the four
placeholder tokens and replacement values that contain no `{`,
`evaluate_unreal_project_path` replaces every occurrence of all four tokens
(none survives in the result) and the replaced string is independent of the
order in which the four replacements are applied. -/
theorem evaluate_project_path_complete_order_independent
    (normpath : String → String) (config_dir engine_location fw_location tmpl ver : String)
    (h1 : tmpl ≠ "") (h2 : ver ≠ "")
    (hc : FreeOf '{' config_dir.data) (he : FreeOf '{' engine_location.data)
    (hv : FreeOf '{' (projectShortVersion ver).data) (hf : FreeOf '{' fw_location.data)
    (hwf : WfT '{' projectTokens tmpl.data) :
    (∀ rs, rs.Perm (projectPathRepls config_dir engine_location
          (projectShortVersion ver) fw_location) →
        applyRepls '{' rs tmpl.data =
          applyRepls '{' (projectPathRepls config_dir engine_location
            (projectShortVersion ver) fw_location) tmpl.data) ∧
    (∀ pr ∈ projectPathRepls config_dir engine_location
          (projectShortVersion ver) fw_location,
        ¬ ('{' :: pr.1) <:+: applyRepls '{' (projectPathRepls config_dir engine_location
          (projectShortVersion ver) fw_location) tmpl.data) ∧
    evaluate_unreal_project_path normpath config_dir engine_location fw_location tmpl ver =
      some (normpath (String.mk (applyRepls '{' (projectPathRepls config_dir engine_location
        (projectShortVersion ver) fw_location) tmpl.data))) := by
  have hok := projectPathRepls_ok config_dir engine_location
    (projectShortVersion ver) fw_location hc he hv hf
  have hpw := projectPathRepls_pairwise config_dir engine_location
    (projectShortVersion ver) fw_location
  refine ⟨?_, ?_, ?_⟩
  · intro rs hperm
    have hok' : ReplsOk '{' projectTokens rs :=
      fun pr hpr => hok pr (hperm.mem_iff.mp hpr)
    have hpw' := (hperm.pairwise_iff (fun h => Ne.symm h)).mpr hpw
    exact applyRepls_perm goodToks_project hperm hok' hpw' tmpl.data hwf
  · exact applyRepls_no_tok goodToks_project _ hok hpw tmpl.data hwf
  · exact evaluate_eq_applyRepls normpath config_dir engine_location fw_location tmpl ver h1 h2

set_option maxRecDepth 100000 in
/-- Closed witness for the amended C8 theorem, at the plugin's default
project-path template with version `5.0.2`. -/
theorem evaluate_project_path_complete_order_independent_witness :
    (("{config}/tk-multi-publish2/tk-maya/unreal/resources/{unreal_engine_version}/turntable/turntable.uproject" : String) ≠ "" ∧
     ("5.0.2" : String) ≠ "" ∧
     FreeOf '{' ("/cfg" : String).data ∧ FreeOf '{' ("/eng" : String).data ∧
     FreeOf '{' (projectShortVersion "5.0.2").data ∧ FreeOf '{' ("/fw" : String).data ∧
     WfT '{' projectTokens ("{config}/tk-multi-publish2/tk-maya/unreal/resources/{unreal_engine_version}/turntable/turntable.uproject" : String).data) ∧
    ((∀ rs, rs.Perm (projectPathRepls "/cfg" "/eng" (projectShortVersion "5.0.2") "/fw") →
        applyRepls '{' rs ("{config}/tk-multi-publish2/tk-maya/unreal/resources/{unreal_engine_version}/turntable/turntable.uproject" : String).data =
          applyRepls '{' (projectPathRepls "/cfg" "/eng" (projectShortVersion "5.0.2") "/fw")
            ("{config}/tk-multi-publish2/tk-maya/unreal/resources/{unreal_engine_version}/turntable/turntable.uproject" : String).data) ∧
     (∀ pr ∈ projectPathRepls "/cfg" "/eng" (projectShortVersion "5.0.2") "/fw",
        ¬ ('{' :: pr.1) <:+: applyRepls '{' (projectPathRepls "/cfg" "/eng" (projectShortVersion "5.0.2") "/fw")
          ("{config}/tk-multi-publish2/tk-maya/unreal/resources/{unreal_engine_version}/turntable/turntable.uproject" : String).data) ∧
     evaluate_unreal_project_path posixNormpath "/cfg" "/eng" "/fw"
        "{config}/tk-multi-publish2/tk-maya/unreal/resources/{unreal_engine_version}/turntable/turntable.uproject" "5.0.2" =
      some (posixNormpath (String.mk (applyRepls '{' (projectPathRepls "/cfg" "/eng" (projectShortVersion "5.0.2") "/fw")
        ("{config}/tk-multi-publish2/tk-maya/unreal/resources/{unreal_engine_version}/turntable/turntable.uproject" : String).data)))) :=
  ⟨⟨by decide, by decide, by decide, by decide, by decide, by decide, by decide⟩,
    evaluate_project_path_complete_order_independent posixNormpath "/cfg" "/eng" "/fw"
      "{config}/tk-multi-publish2/tk-maya/unreal/resources/{unreal_engine_version}/turntable/turntable.uproject" "5.0.2"
      (by decide) (by decide) (by decide) (by decide) (by decide) (by decide) (by decide)⟩

/-- C8 counterexample: with version string `"{self}"` (nonempty) and template
`"{unreal_engine_version}"` (nonempty), the source's replacement order yields
`"F"` while the reversed order of the same four replacements yields
`"{self}"` — the result is not order independent as the claim states. -/
theorem evaluate_project_path_order_dependent_cex :
    ("{unreal_engine_version}" : String) ≠ "" ∧ ("{self}" : String) ≠ "" ∧
    List.Perm (projectPathRepls "C" "E" (projectShortVersion "{self}") "F").reverse
      (projectPathRepls "C" "E" (projectShortVersion "{self}") "F") ∧
    evaluate_unreal_project_path posixNormpath "C" "E" "F" "{unreal_engine_version}" "{self}" =
      some (posixNormpath (String.mk (applyRepls '{'
        (projectPathRepls "C" "E" (projectShortVersion "{self}") "F")
        ("{unreal_engine_version}" : String).data))) ∧
    posixNormpath (String.mk (applyRepls '{'
        (projectPathRepls "C" "E" (projectShortVersion "{self}") "F")
        ("{unreal_engine_version}" : String).data)) = "F" ∧
    posixNormpath (String.mk (applyRepls '{'
        (projectPathRepls "C" "E" (projectShortVersion "{self}") "F").reverse
        ("{unreal_engine_version}" : String).data)) = "{self}" ∧
    ("F" : String) ≠ "{self}" :=
  ⟨by decide, by decide, List.reverse_perm _,
    evaluate_eq_applyRepls posixNormpath "C" "E" "F" "{unreal_engine_version}" "{self}"
      (by decide) (by decide),
    by decide, by decide, by decide⟩

/-! ## Host data model

Property bags of publish items are Python dicts; values that flow through
this hook are path strings, integer versions and opaque host records (the
Shotgun publish-data dicts). -/

inductive PVal where
  | str (s : String)
  | int (n : Int)
  | obj (id : Nat)
deriving DecidableEq

/-- A property bag; the newest binding of a key shadows older ones, matching
dict assignment. -/
abbrev Fields := List (String × PVal)

def fset (m : Fields) (k : String) (v : PVal) : Fields := (k, v) :: m

def flook : Fields → String → Option PVal
  | [], _ => none
  | (k', v) :: rest, k => if k' = k then some v else flook rest k

def fdel (m : Fields) (k : String) : Fields := m.filter (fun pr => pr.1 != k)

/-- Python truthiness of the values that appear in the bags. -/
def pvalTruthy : PVal → Bool
  | PVal.str s => s != ""
  | PVal.int n => n != 0
  | PVal.obj _ => true

theorem flook_fset_self (m : Fields) (k : String) (v : PVal) :
    flook (fset m k v) k = some v := by
  simp [fset, flook]

theorem flook_fset_ne (m : Fields) {k k' : String} (v : PVal) (h : k' ≠ k) :
    flook (fset m k' v) k = flook m k := by
  simp [fset, flook, h]

theorem flook_fdel_self (m : Fields) (k : String) : flook (fdel m k) k = none := by
  induction m with
  | nil => rfl
  | cons pr rest ih =>
    rcases pr with ⟨k', v⟩
    by_cases h : k' = k
    · simp [fdel, h] at ih ⊢
      exact ih
    · simp [fdel, flook, h] at ih ⊢
      exact ih

theorem flook_fdel_ne (m : Fields) {k k' : String} (h : k' ≠ k) :
    flook (fdel m k') k = flook m k := by
  induction m with
  | nil => rfl
  | cons pr rest ih =>
    rcases pr with ⟨k'', v⟩
    by_cases h2 : k'' = k'
    · subst h2
      simp [fdel, flook, h] at ih ⊢
      exact ih
    · simp [fdel, flook, h2] at ih ⊢
      by_cases h3 : k'' = k <;> simp [h3, ih]

theorem flook_none_fdel (m : Fields) (k : String) (h : flook m k = none) :
    fdel m k = m := by
  induction m with
  | nil => rfl
  | cons pr rest ih =>
    rcases pr with ⟨k', v⟩
    by_cases h2 : k' = k
    · simp [flook, h2] at h
    · simp [flook, h2] at h
      simp [fdel, h2] at ih ⊢
      exact ih h

/-- A Toolkit path template (host collaborator): field extraction, missing-key
query and field application. -/
structure TkTemplate where
  get_fields : String → Fields
  missing_keys : Fields → List String
  apply_fields : Fields → String

/-- A software version discovered by the host's engine launcher. -/
structure SoftwareVersion where
  display_name : String
  version : String
  path : String

/-- The settings of the plugin read during validate/publish (each entry is
`settings[name].value`). -/
structure Settings where
  unreal_engine_path : String
  unreal_engine_version : String
  unreal_project_path_template : String
  unreal_project_path : String
  turntable_map_path : String
  sequence_path : String
  turntable_assets_path : String

/-- A publish item: shared properties, plugin-local properties, and the two
template objects stored in them by `accept`/the collector (the source keeps
`work_template` in `item.properties` and `publish_template` in
`item.local_properties`; they are typed fields here because template objects
are host closures, not plain values). -/
structure Item where
  properties : Fields
  local_properties : Fields
  work_template : Option TkTemplate
  publish_template : Option TkTemplate

/-- Oracles for everything `validate` observes outside the hook: Maya session
state, `sys.platform`, the filesystem, the workspace queries, the engine
discovery and the path services used by `evaluate_unreal_project_path`. -/
structure Env where
  platform : String
  session_path : String
  normalize : String → String
  os_exists : String → Bool
  os_isfile : String → Bool
  open_workspace : String
  file_rule_movie : String
  expand_name : String → String
  unreal_versions : List SoftwareVersion
  config_dir : String
  engine_location : String
  fw_location : String
  normpath : String → String

/-- Outcome of a lifecycle call: a returned value or a raised exception. -/
inductive VResult where
  | ok (b : Bool)
  | raised (msg : String)
deriving DecidableEq

/-! ## posix `os.path` helpers (modelled from the Python standard library) -/

def rstripChar (c : Char) (l : List Char) : List Char :=
  (l.reverse.dropWhile (fun x => x = c)).reverse

/-- `posixpath.split`. -/
def pySplitPath (p : String) : String × String :=
  let cs := p.data
  let tail := (cs.reverse.takeWhile (fun x => x ≠ '/')).reverse
  let head := cs.take (cs.length - tail.length)
  let head :=
    if head ≠ [] ∧ ¬ (head.all (fun x => x = '/')) then rstripChar '/' head else head
  (String.mk head, String.mk tail)

/-- `posixpath.basename`: the part after the last separator. -/
def basenamePosix (p : String) : String :=
  String.mk ((p.data.reverse.takeWhile (fun x => x ≠ '/')).reverse)

/-- `posixpath.splitext`: split off the extension at the last dot of the last
component, unless all characters before that dot are dots. -/
def pySplitext (p : String) : String × String :=
  let cs := p.data
  let base := (cs.reverse.takeWhile (fun x => x ≠ '/')).reverse
  match breakFirst '.' base.reverse with
  | none => (p, "")
  | some (extRev, nameRev) =>
    if nameRev.any (fun x => x ≠ '.') then
      (String.mk (cs.take (cs.length - extRev.length - 1)),
       String.mk ('.' :: extRev.reverse))
    else (p, "")

/-- `posixpath.join` for two components. -/
def posixJoin (a b : String) : String :=
  if b.data.take 1 = ['/'] then b
  else if a.data = [] ∨ a.data.getLast? = some '/' then String.mk (a.data ++ b.data)
  else String.mk (a.data ++ '/' :: b.data)

/-! ## validate -/

/-- The executable-resolution block of `get_unreal_exec_property`: when no
explicit path is configured, scan installed versions, preferring a
`major.minor` match and falling back to the first entry (which also replaces
the version). -/
def resolveUnrealExec (env : Env) (settings : Settings) : Except String (String × String) :=
  let unreal_exec_path := settings.unreal_engine_path
  let unreal_engine_version := settings.unreal_engine_version
  let short_engine_version := shortVersion unreal_engine_version
  if unreal_exec_path = "" then
    match env.unreal_versions with
    | [] => Except.error
        "No Unreal version could be detected on this machine, please set explicitely a value in this item's UI."
    | v0 :: _ =>
      match env.unreal_versions.find?
          (fun v => shortVersion v.version == short_engine_version) with
      | some v => Except.ok (v.path, unreal_engine_version)
      | none => Except.ok (v0.path, v0.version)
  else Except.ok (unreal_exec_path, unreal_engine_version)

/-- `get_unreal_exec_property`: resolve the Unreal executable, raising when
nothing can be resolved or the executable does not exist on disk; on success
store `unreal_exec_path` and `unreal_engine_version` on the item. -/
def get_unreal_exec_property (env : Env) (settings : Settings) (item : Item) :
    Except String Item :=
  match resolveUnrealExec env settings with
  | Except.error e => Except.error e
  | Except.ok (path, version) =>
    if path = "" ∨ env.os_exists path = false then
      Except.error ("Unreal executable not found at " ++ path)
    else
      let props := fset (fset item.properties "unreal_exec_path" (PVal.str path))
        "unreal_engine_version" (PVal.str version)
      Except.ok { item with properties := props }

/-- The path-resolution block of `get_unreal_project_property`: use the
configured path, or evaluate the path template with the engine version stored
on the item; a path that cannot be built raises. -/
def resolveUnrealProject (env : Env) (settings : Settings) (item : Item) :
    Except String String :=
  let stored := settings.unreal_project_path
  if stored = "" then
    match flook item.properties "unreal_engine_version" with
    | some (PVal.str engine_version) =>
      match evaluate_unreal_project_path env.normpath env.config_dir env.engine_location
          env.fw_location settings.unreal_project_path_template engine_version with
      | some p =>
        if p = "" then
          Except.error ("Unable to build an Unreal project path from " ++
            settings.unreal_project_path_template ++ " with Unreal version " ++ engine_version)
        else Except.ok p
      | none =>
        Except.error ("Unable to build an Unreal project path from " ++
          settings.unreal_project_path_template ++ " with Unreal version " ++ engine_version)
    | some _ => Except.error "TypeError: unreal_engine_version is not a string"
    | none => Except.error "KeyError: unreal_engine_version"
  else Except.ok stored

/-- `get_unreal_project_property`: resolve the Unreal project path, raising
when it cannot be built or is not a file; on success store
`unreal_project_path` on the item. -/
def get_unreal_project_property (env : Env) (settings : Settings) (item : Item) :
    Except String Item :=
  match resolveUnrealProject env settings item with
  | Except.error e => Except.error e
  | Except.ok p =>
    if env.os_isfile p = false then
      Except.error ("Unreal project not found at " ++ p)
    else
      let props := fset item.properties "unreal_project_path" (PVal.str p)
      Except.ok { item with properties := props }

/-- The checks of `validate` after the publish type was stamped: resolve
executable and project (which may raise), then check the three Unreal data
settings in order, storing each; persist UI settings and return True on
success. -/
def validateChecks (env : Env) (settings : Settings) (item : Item) : VResult × Item :=
  match get_unreal_exec_property env settings item with
  | Except.error msg => (VResult.raised msg, item)
  | Except.ok item1 =>
    match get_unreal_project_property env settings item1 with
    | Except.error msg => (VResult.raised msg, item1)
    | Except.ok item2 =>
      if settings.turntable_map_path = "" then (VResult.ok false, item2)
      else
        let props3 := fset item2.properties "turntable_map_path"
          (PVal.str settings.turntable_map_path)
        let item3 := { item2 with properties := props3 }
        if settings.sequence_path = "" then (VResult.ok false, item3)
        else
          let props4 := fset item3.properties "sequence_path" (PVal.str settings.sequence_path)
          let item4 := { item3 with properties := props4 }
          if settings.turntable_assets_path = "" then (VResult.ok false, item4)
          else
            let props5 := fset item4.properties "turntable_assets_path"
              (PVal.str settings.turntable_assets_path)
            let item5 := { item4 with properties := props5 }
            (VResult.ok true, item5)

/-- Stamp the publish type, then run the executable/project/data checks. -/
def validateTail (env : Env) (settings : Settings) (item : Item) : VResult × Item :=
  let locals0 := fset item.local_properties "publish_type" (PVal.str "Unreal Turntable Render")
  validateChecks env settings { item with local_properties := locals0 }

/-- `validate` of the publish plugin.  Returns False with a Save As action
when the session has never been saved; derives the publish path from the
work/publish templates (injecting the platform movie extension) or from the
Maya workspace; then runs `validateTail`. -/
def validate (env : Env) (settings : Settings) (item : Item) : VResult × Item :=
  let path0 := env.session_path
  if path0 = "" then
    (VResult.ok false, item)
  else
    let path := env.normalize path0
    let item := { item with properties := fset item.properties "path" (PVal.str path) }
    match item.work_template, item.publish_template with
    | some work_template, some publish_template =>
      let work_fields := work_template.get_fields path
      let work_fields := fset work_fields "ue_mov_ext"
        (PVal.str (if env.platform = "win32" then "avi" else "mov"))
      let missing_keys := publish_template.missing_keys work_fields
      if missing_keys ≠ [] then (VResult.ok false, item)
      else
        let locals1 := fset item.local_properties "publish_path"
          (PVal.str (publish_template.apply_fields work_fields))
        let item := { item with local_properties := locals1 }
        let item :=
          match flook work_fields "version" with
          | some v => { item with properties := fset item.properties "publish_version" v }
          | none => item
        validateTail env settings item
    | _, _ =>
      if env.open_workspace = "" then (VResult.ok false, item)
      else
        let movie_dir := if env.file_rule_movie ≠ "" then env.file_rule_movie else "data"
        let movie_dir := env.expand_name (posixJoin movie_dir "publishes")
        let base_name := (pySplitext (basenamePosix path)).1
        let base_name :=
          if env.platform = "win32" then base_name ++ ".avi" else base_name ++ ".mov"
        let publish_path := posixJoin movie_dir base_name
        let locals1 := fset item.local_properties "publish_path" (PVal.str publish_path)
        let item := { item with local_properties := locals1 }
        validateTail env settings item

/-! ## validate: what the tail stages do and do not touch -/

theorem exec_prop_ok {env : Env} {settings : Settings} {item item' : Item}
    (h : get_unreal_exec_property env settings item = Except.ok item') :
    item'.local_properties = item.local_properties ∧
    (∀ k, k ≠ "unreal_exec_path" → k ≠ "unreal_engine_version" →
      flook item'.properties k = flook item.properties k) := by
  unfold get_unreal_exec_property at h
  split at h
  · simp at h
  · split at h
    · simp at h
    · injection h with h2
      subst h2
      refine ⟨rfl, ?_⟩
      intro k h1 h2
      rw [flook_fset_ne _ _ (Ne.symm h2), flook_fset_ne _ _ (Ne.symm h1)]

theorem project_prop_ok {env : Env} {settings : Settings} {item item' : Item}
    (h : get_unreal_project_property env settings item = Except.ok item') :
    item'.local_properties = item.local_properties ∧
    (∀ k, k ≠ "unreal_project_path" →
      flook item'.properties k = flook item.properties k) := by
  unfold get_unreal_project_property at h
  split at h
  · simp at h
  · split at h
    · simp at h
    · injection h with h2
      subst h2
      refine ⟨rfl, ?_⟩
      intro k h1
      rw [flook_fset_ne _ _ (Ne.symm h1)]

theorem validateChecks_local (env : Env) (settings : Settings) (item : Item) (k : String) :
    flook (validateChecks env settings item).2.local_properties k =
      flook item.local_properties k := by
  unfold validateChecks
  split
  · rfl
  · next item1 hexec =>
    have h1 := (exec_prop_ok hexec).1
    split
    · show flook item1.local_properties k = _
      rw [h1]
    · next item2 hproj =>
      have h2 := (project_prop_ok hproj).1
      split
      · show flook item2.local_properties k = _
        rw [h2, h1]
      · split
        · show flook item2.local_properties k = _
          rw [h2, h1]
        · split
          · show flook item2.local_properties k = _
            rw [h2, h1]
          · show flook item2.local_properties k = _
            rw [h2, h1]

theorem validateChecks_props (env : Env) (settings : Settings) (item : Item)
    (k : String) (h1 : k ≠ "unreal_exec_path") (h2 : k ≠ "unreal_engine_version")
    (h3 : k ≠ "unreal_project_path") (h4 : k ≠ "turntable_map_path")
    (h5 : k ≠ "sequence_path") (h6 : k ≠ "turntable_assets_path") :
    flook (validateChecks env settings item).2.properties k =
      flook item.properties k := by
  unfold validateChecks
  split
  · rfl
  · next item1 hexec =>
    have he := (exec_prop_ok hexec).2 k h1 h2
    split
    · exact he
    · next item2 hproj =>
      have hp := (project_prop_ok hproj).2 k h3
      split
      · show flook item2.properties k = _
        rw [hp, he]
      · split
        · show flook (fset item2.properties "turntable_map_path"
            (PVal.str settings.turntable_map_path)) k = _
          rw [flook_fset_ne _ _ (Ne.symm h4), hp, he]
        · split
          · show flook (fset (fset item2.properties "turntable_map_path"
              (PVal.str settings.turntable_map_path)) "sequence_path"
              (PVal.str settings.sequence_path)) k = _
            rw [flook_fset_ne _ _ (Ne.symm h5), flook_fset_ne _ _ (Ne.symm h4), hp, he]
          · show flook (fset (fset (fset item2.properties "turntable_map_path"
              (PVal.str settings.turntable_map_path)) "sequence_path"
              (PVal.str settings.sequence_path)) "turntable_assets_path"
              (PVal.str settings.turntable_assets_path)) k = _
            rw [flook_fset_ne _ _ (Ne.symm h6), flook_fset_ne _ _ (Ne.symm h5),
              flook_fset_ne _ _ (Ne.symm h4), hp, he]

theorem validateTail_publish_path (env : Env) (settings : Settings) (item : Item) :
    flook (validateTail env settings item).2.local_properties "publish_path" =
      flook item.local_properties "publish_path" := by
  rw [validateTail, validateChecks_local]
  exact flook_fset_ne _ _ (show ("publish_type" : String) ≠ "publish_path" by decide)

theorem validateTail_publish_version (env : Env) (settings : Settings) (item : Item) :
    flook (validateTail env settings item).2.properties "publish_version" =
      flook item.properties "publish_version" := by
  rw [validateTail]
  exact validateChecks_props env settings _ _ (by decide) (by decide) (by decide)
    (by decide) (by decide) (by decide)

/-! ## Claims on validate -/

/-- C1 (amended): when the Maya session has never been saved
(`_session_path()` returns the empty string), `validate` logs an error with a
Save As action and returns False — it does not raise — leaving the item
untouched. -/
theorem validate_unsaved_session_returns_false (env : Env) (settings : Settings)
    (item : Item) (h : env.session_path = "") :
    validate env settings item = (VResult.ok false, item) := by
  rw [validate, if_pos h]

/-- The work template of the spec's end-to-end scenario: field extraction
yields `{name: "foo", version: 3}` for any session path. -/
def workTemplateFoo : TkTemplate :=
  { get_fields := fun _ => [("name", PVal.str "foo"), ("version", PVal.int 3)]
    missing_keys := fun _ => []
    apply_fields := fun _ => "" }

/-- Render a template field value the way `apply_fields` prints it into a
path. -/
def pvalFormat : PVal → String
  | PVal.str s => s
  | PVal.int n => toString n
  | PVal.obj i => toString i

/-- The publish template of the spec's end-to-end scenario,
`{name}_v{version}.mov`: its keys are `name` and `version`; applying fields
renders `<name>_v<version>.mov`. -/
def publishTemplateNameVersionMov : TkTemplate :=
  { get_fields := fun _ => []
    missing_keys := fun f => (["name", "version"].filter (fun k => (flook f k).isNone))
    apply_fields := fun f =>
      pvalFormat ((flook f "name").getD (PVal.str "")) ++ "_v" ++
        pvalFormat ((flook f "version").getD (PVal.str "")) ++ ".mov" }

/-- C2: with a saved session, a work template extracting
`{name: "foo", version: 3}` and publish template `{name}_v{version}.mov`,
validate stores `publish_path = "foo_v3.mov"` in the item's local properties
and `publish_version = 3` in its shared properties. -/
theorem validate_sets_publish_path_foo_v3 (env : Env) (settings : Settings)
    (props locals : Fields) (h : env.session_path ≠ "") :
    flook (validate env settings
      { properties := props, local_properties := locals,
        work_template := some workTemplateFoo,
        publish_template := some publishTemplateNameVersionMov }).2.local_properties
      "publish_path" = some (PVal.str "foo_v3.mov") ∧
    flook (validate env settings
      { properties := props, local_properties := locals,
        work_template := some workTemplateFoo,
        publish_template := some publishTemplateNameVersionMov }).2.properties
      "publish_version" = some (PVal.int 3) := by
  rw [validate, if_neg h]
  dsimp only
  constructor
  · simp +decide [workTemplateFoo, publishTemplateNameVersionMov, fset, flook, pvalFormat,
      validateTail_publish_path]
  · simp +decide [workTemplateFoo, publishTemplateNameVersionMov, fset, flook, pvalFormat,
      validateTail_publish_version]

/-- C3: with both templates configured and the session path matching the work
template, validate's publish-path derivation injects the extension field
`ue_mov_ext` — `"avi"` on win32, `"mov"` on every other platform — into the
extracted fields; if the publish template still reports missing keys validate
returns False, otherwise the publish path applied from the completed fields is
stored. -/
theorem validate_template_path_derivation (env : Env) (settings : Settings)
    (props locals : Fields) (wt pt : TkTemplate) (h : env.session_path ≠ "") :
    (pt.missing_keys (fset (wt.get_fields (env.normalize env.session_path)) "ue_mov_ext"
        (PVal.str (if env.platform = "win32" then "avi" else "mov"))) ≠ [] →
      (validate env settings
        { properties := props, local_properties := locals,
          work_template := some wt, publish_template := some pt }).1 = VResult.ok false) ∧
    (pt.missing_keys (fset (wt.get_fields (env.normalize env.session_path)) "ue_mov_ext"
        (PVal.str (if env.platform = "win32" then "avi" else "mov"))) = [] →
      flook (validate env settings
        { properties := props, local_properties := locals,
          work_template := some wt, publish_template := some pt }).2.local_properties
        "publish_path" =
        some (PVal.str (pt.apply_fields
          (fset (wt.get_fields (env.normalize env.session_path)) "ue_mov_ext"
            (PVal.str (if env.platform = "win32" then "avi" else "mov")))))) := by
  constructor
  · intro hmk
    rw [validate, if_neg h]
    dsimp only
    rw [if_pos hmk]
  · intro hmk
    rw [validate, if_neg h]
    dsimp only
    rw [if_neg (by simp [hmk])]
    split
    · rw [validateTail_publish_path]
      exact flook_fset_self _ _ _
    · rw [validateTail_publish_path]
      exact flook_fset_self _ _ _

theorem validateChecks_empty_settings_false (env : Env) (settings : Settings) (item : Item)
    (hexec : settings.unreal_engine_path ≠ "")
    (hexec2 : env.os_exists settings.unreal_engine_path = true)
    (hproj : settings.unreal_project_path ≠ "")
    (hproj2 : env.os_isfile settings.unreal_project_path = true)
    (hempty : settings.turntable_map_path = "" ∨ settings.sequence_path = "" ∨
      settings.turntable_assets_path = "") :
    (validateChecks env settings item).1 = VResult.ok false := by
  have hresolve : resolveUnrealExec env settings =
      Except.ok (settings.unreal_engine_path, settings.unreal_engine_version) := by
    rw [resolveUnrealExec, if_neg hexec]
  have hcheck : ¬ (settings.unreal_engine_path = "" ∨
      env.os_exists settings.unreal_engine_path = false) := by
    simp [hexec, hexec2]
  have hexecok : get_unreal_exec_property env settings item = Except.ok { item with properties := fset (fset item.properties "unreal_exec_path" (PVal.str settings.unreal_engine_path)) "unreal_engine_version" (PVal.str settings.unreal_engine_version) } := by
    rw [get_unreal_exec_property, hresolve]
    dsimp only
    rw [if_neg hcheck]
  have hprojresolve : resolveUnrealProject env settings { item with properties := fset (fset item.properties "unreal_exec_path" (PVal.str settings.unreal_engine_path)) "unreal_engine_version" (PVal.str settings.unreal_engine_version) } = Except.ok settings.unreal_project_path := by
    rw [resolveUnrealProject, if_neg hproj]
  rw [validateChecks, hexecok]
  dsimp only
  rw [get_unreal_project_property, hprojresolve]
  dsimp only
  rw [if_neg (by simp [hproj2])]
  dsimp only
  by_cases h1 : settings.turntable_map_path = ""
  · rw [if_pos h1]
  · rw [if_neg h1]
    by_cases h2 : settings.sequence_path = ""
    · rw [if_pos h2]
    · rw [if_neg h2]
      by_cases h3 : settings.turntable_assets_path = ""
      · rw [if_pos h3]
      · rcases hempty with he | he | he
        · exact absurd he h1
        · exact absurd he h2
        · exact absurd he h3

/-- C6: given a saved session, a resolvable Unreal executable and project and
otherwise-valid settings (templates whose derivation succeeds), if any one of
the three string settings Turntable Map Path, Sequence Path or Turntable
Assets Path is empty then validate returns False and raises no exception. -/
theorem validate_empty_unreal_settings_false (env : Env) (settings : Settings)
    (props locals : Fields) (wt pt : TkTemplate)
    (hsess : env.session_path ≠ "")
    (hmk : pt.missing_keys (fset (wt.get_fields (env.normalize env.session_path)) "ue_mov_ext"
      (PVal.str (if env.platform = "win32" then "avi" else "mov"))) = [])
    (hexec : settings.unreal_engine_path ≠ "")
    (hexec2 : env.os_exists settings.unreal_engine_path = true)
    (hproj : settings.unreal_project_path ≠ "")
    (hproj2 : env.os_isfile settings.unreal_project_path = true)
    (hempty : settings.turntable_map_path = "" ∨ settings.sequence_path = "" ∨
      settings.turntable_assets_path = "") :
    (validate env settings
      { properties := props, local_properties := locals,
        work_template := some wt, publish_template := some pt }).1 = VResult.ok false := by
  rw [validate, if_neg hsess]
  dsimp only
  rw [if_neg (by simp [hmk])]
  split
  · rw [validateTail]
    exact validateChecks_empty_settings_false env settings _ hexec hexec2 hproj hproj2 hempty
  · rw [validateTail]
    exact validateChecks_empty_settings_false env settings _ hexec hexec2 hproj hproj2 hempty

/-! ## Concrete fixtures for witnesses and counterexamples -/

/-- A benign environment with a saved session. -/
def envSavedW : Env :=
  { platform := "linux", session_path := "/scenes/foo_v003.ma",
    normalize := fun s => s, os_exists := fun _ => true, os_isfile := fun _ => true,
    open_workspace := "", file_rule_movie := "", expand_name := fun s => s,
    unreal_versions := [], config_dir := "", engine_location := "", fw_location := "",
    normpath := fun s => s }

/-- The same environment with a session that has never been saved. -/
def envUnsavedW : Env := { envSavedW with session_path := "" }

def settingsW : Settings :=
  { unreal_engine_path := "/opt/UE/UnrealEditor", unreal_engine_version := "5.0.2",
    unreal_project_path_template := "", unreal_project_path := "/proj/turntable.uproject",
    turntable_map_path := "/Game/turntable/level/turntable.umap",
    sequence_path := "/Game/turntable/sequence/turntable_sequence.turntable_sequence",
    turntable_assets_path := "/Game/maya_turntable_assets" }

def settingsEmptyMapW : Settings := { settingsW with turntable_map_path := "" }

def itemPlainW : Item :=
  { properties := [], local_properties := [], work_template := none, publish_template := none }

/-- C1 counterexample: with an unsaved session (`_session_path()` empty),
`validate` does not raise — it returns the value False. -/
theorem validate_unsaved_session_no_raise_cex :
    envUnsavedW.session_path = "" ∧
    validate envUnsavedW settingsW itemPlainW = (VResult.ok false, itemPlainW) ∧
    (∀ msg, (validate envUnsavedW settingsW itemPlainW).1 ≠ VResult.raised msg) := by
  refine ⟨rfl, rfl, ?_⟩
  intro msg
  intro hcontra
  exact VResult.noConfusion hcontra

theorem validate_unsaved_session_returns_false_witness :
    envUnsavedW.session_path = "" ∧
    validate envUnsavedW settingsW itemPlainW = (VResult.ok false, itemPlainW) :=
  ⟨rfl, validate_unsaved_session_returns_false envUnsavedW settingsW itemPlainW rfl⟩

theorem validate_sets_publish_path_foo_v3_witness :
    envSavedW.session_path ≠ "" ∧
    (flook (validate envSavedW settingsW
      { properties := [], local_properties := [],
        work_template := some workTemplateFoo,
        publish_template := some publishTemplateNameVersionMov }).2.local_properties
      "publish_path" = some (PVal.str "foo_v3.mov") ∧
    flook (validate envSavedW settingsW
      { properties := [], local_properties := [],
        work_template := some workTemplateFoo,
        publish_template := some publishTemplateNameVersionMov }).2.properties
      "publish_version" = some (PVal.int 3)) :=
  ⟨by decide, validate_sets_publish_path_foo_v3 envSavedW settingsW [] [] (by decide)⟩

theorem validate_template_path_derivation_witness :
    envSavedW.session_path ≠ "" ∧
    ((publishTemplateNameVersionMov.missing_keys
        (fset (workTemplateFoo.get_fields (envSavedW.normalize envSavedW.session_path))
          "ue_mov_ext"
          (PVal.str (if envSavedW.platform = "win32" then "avi" else "mov"))) ≠ [] →
      (validate envSavedW settingsW
        { properties := [], local_properties := [],
          work_template := some workTemplateFoo,
          publish_template := some publishTemplateNameVersionMov }).1 = VResult.ok false) ∧
    (publishTemplateNameVersionMov.missing_keys
        (fset (workTemplateFoo.get_fields (envSavedW.normalize envSavedW.session_path))
          "ue_mov_ext"
          (PVal.str (if envSavedW.platform = "win32" then "avi" else "mov"))) = [] →
      flook (validate envSavedW settingsW
        { properties := [], local_properties := [],
          work_template := some workTemplateFoo,
          publish_template := some publishTemplateNameVersionMov }).2.local_properties
        "publish_path" =
        some (PVal.str (publishTemplateNameVersionMov.apply_fields
          (fset (workTemplateFoo.get_fields (envSavedW.normalize envSavedW.session_path))
            "ue_mov_ext"
            (PVal.str (if envSavedW.platform = "win32" then "avi" else "mov"))))))) :=
  ⟨by decide, validate_template_path_derivation envSavedW settingsW [] []
    workTemplateFoo publishTemplateNameVersionMov (by decide)⟩

theorem validate_empty_unreal_settings_false_witness :
    (envSavedW.session_path ≠ "" ∧
     publishTemplateNameVersionMov.missing_keys
       (fset (workTemplateFoo.get_fields (envSavedW.normalize envSavedW.session_path))
         "ue_mov_ext"
         (PVal.str (if envSavedW.platform = "win32" then "avi" else "mov"))) = [] ∧
     settingsEmptyMapW.unreal_engine_path ≠ "" ∧
     envSavedW.os_exists settingsEmptyMapW.unreal_engine_path = true ∧
     settingsEmptyMapW.unreal_project_path ≠ "" ∧
     envSavedW.os_isfile settingsEmptyMapW.unreal_project_path = true ∧
     settingsEmptyMapW.turntable_map_path = "") ∧
    (validate envSavedW settingsEmptyMapW
      { properties := [], local_properties := [],
        work_template := some workTemplateFoo,
        publish_template := some publishTemplateNameVersionMov }).1 = VResult.ok false :=
  ⟨⟨by decide, by decide, by decide, by decide, by decide, by decide, by decide⟩,
    validate_empty_unreal_settings_false envSavedW settingsEmptyMapW [] []
      workTemplateFoo publishTemplateNameVersionMov (by decide) (by decide) (by decide)
      (by decide) (by decide) (by decide) (Or.inl (by decide))⟩

/-! ## finalize -/

/-- `logging.DEBUG`. -/
def logging_DEBUG : Int := 10

/-- Result of `finalize`: whether it raised, the argument `shutil.rmtree` was
called with (if it was), and the item state. -/
structure FinalizeResult where
  raised : Option String
  removed_tree : Option PVal
  item : Item

/-- `finalize` of the publish plugin: copy the locally stored publish data
into the shared property (raising like the attribute access in the source
when it is absent), run the base finalization (external), then delete the
recorded temp folder — unless the effective logging level is DEBUG or finer.
`effective_level` is `self.logger.getEffectiveLevel()`. -/
def finalize (effective_level : Int) (item : Item) : FinalizeResult :=
  match flook item.local_properties "sg_publish_data" with
  | none =>
    { raised := some "AttributeError: sg_publish_data", removed_tree := none, item := item }
  | some d =>
    let item := { item with properties := fset item.properties "sg_publish_data" d }
    if logging_DEBUG < effective_level then
      match flook item.local_properties "temp_folder" with
      | some v =>
        if pvalTruthy v then
          { raised := none, removed_tree := some v, item := item }
        else
          { raised := none, removed_tree := none, item := item }
      | none => { raised := none, removed_tree := none, item := item }
    else
      { raised := none, removed_tree := none, item := item }

/-- C7: when a (truthy) temp folder is recorded in the item's local
properties and the publish data is present, finalize passes the temp folder
to `shutil.rmtree` exactly when the effective logging level is coarser
(numerically greater) than DEBUG; at DEBUG or finer it deletes nothing. -/
theorem finalize_deletes_temp_iff_above_debug (effective_level : Int) (item : Item)
    (d : PVal) (t : String)
    (hsg : flook item.local_properties "sg_publish_data" = some d)
    (ht : flook item.local_properties "temp_folder" = some (PVal.str t))
    (htne : t ≠ "") :
    (finalize effective_level item).removed_tree =
      (if logging_DEBUG < effective_level then some (PVal.str t) else none) ∧
    (finalize effective_level item).raised = none := by
  rw [finalize, hsg]
  dsimp only
  by_cases hl : logging_DEBUG < effective_level
  · rw [if_pos hl, if_pos hl, ht]
    dsimp only
    rw [if_pos (by simp [pvalTruthy, htne])]
    exact ⟨rfl, rfl⟩
  · rw [if_neg hl, if_neg hl]
    exact ⟨rfl, rfl⟩

def itemFinalizeW : Item :=
  { properties := [], work_template := none, publish_template := none,
    local_properties := [("sg_publish_data", PVal.obj 7),
      ("temp_folder", PVal.str "/home/user/AppData/Local/Temp/xyztemp_unreal_shotgun")] }

theorem finalize_deletes_temp_iff_above_debug_witness :
    (flook itemFinalizeW.local_properties "sg_publish_data" = some (PVal.obj 7) ∧
     flook itemFinalizeW.local_properties "temp_folder" =
       some (PVal.str "/home/user/AppData/Local/Temp/xyztemp_unreal_shotgun") ∧
     ("/home/user/AppData/Local/Temp/xyztemp_unreal_shotgun" : String) ≠ "") ∧
    ((finalize 20 itemFinalizeW).removed_tree =
      (if logging_DEBUG < 20 then
        some (PVal.str "/home/user/AppData/Local/Temp/xyztemp_unreal_shotgun") else none) ∧
     (finalize 20 itemFinalizeW).raised = none) :=
  ⟨⟨by decide, by decide, by decide⟩,
    finalize_deletes_temp_iff_above_debug 20 itemFinalizeW (PVal.obj 7)
      "/home/user/AppData/Local/Temp/xyztemp_unreal_shotgun" (by decide) (by decide) (by decide)⟩

/-! ## publish: string helpers -/

/-- First occurrence of a multi-character separator: `some (before, after)`,
or `none` when absent. -/
def breakFirstSub (sep : List Char) : List Char → Option (List Char × List Char)
  | [] => none
  | c :: r =>
    if sep.isPrefixOf (c :: r) then some ([], (c :: r).drop sep.length)
    else (breakFirstSub sep r).map (fun p => (c :: p.1, p.2))

def splitOnSub (sep : List Char) : Nat → List Char → List (List Char)
  | 0, l => [l]
  | n + 1, l =>
    match breakFirstSub sep l with
    | none => [l]
    | some (u, w) => u :: splitOnSub sep n w

/-- Python `s.split(sep)` for a non-empty separator string. -/
def pySplitStr (sep s : String) : List String :=
  (splitOnSub sep.data s.data.length s.data).map String.mk

/-- The temp-path rebasing done twice in `publish`: split the `mkdtemp`
result on `'AppData'` — the two-variable unpacking raises unless exactly one
occurrence — and re-root the `AppData` part under the parent of the user's
home directory. -/
def appDataRebase (home_parent mkdtemp_path : String) : Option String :=
  match pySplitStr "AppData" mkdtemp_path with
  | [_, app] => some (home_parent ++ "/AppData" ++ app)
  | _ => none

/-- A word character for the hook's `re.compile(r"\W", re.UNICODE)` pattern
(ASCII approximation: letters, digits and underscore). -/
def pyIsWordChar (c : Char) : Bool := c.isAlpha || c.isDigit || c = '_'

/-- `exp.sub("_", s)`: replace every non-word character with an underscore. -/
def subNonWord (s : String) : String :=
  String.mk (s.data.map (fun c => if pyIsWordChar c then c else '_'))

/-- `re.search(exp, s)` for the non-word pattern: is any character non-word? -/
def hasNonWord (s : String) : Bool := s.data.any (fun c => !pyIsWordChar c)

def containsSpace (s : String) : Bool := s.data.contains ' '

/-- `re.sub(r"\.avi$", ".mov", p)`. -/
def subAviToMov (p : String) : String :=
  if p.endsWith ".avi" then p.dropRight 4 ++ ".mov" else p

/-- `sep.join(parts)`. -/
def joinWith (sep : String) : List String → String
  | [] => ""
  | [a] => a
  | a :: rest => a ++ sep ++ joinWith sep rest

/-! ## publish: oracles, events and outcomes -/

/-- Observable side effects of `publish` and the subprocess launchers, in
program order.  `call` records the command line and, when one is passed
explicitly, the subprocess environment; `base_publish` records the
`sg_publish_data` visible on the parent item when the base implementation is
invoked. -/
inductive Ev where
  | copy (src dst : String)
  | copytree (src dst : String)
  | removeFile (p : String)
  | fbx_export (p : String)
  | call (args : List String) (extra_env : List (String × String))
  | ensure_folder (p : String)
  | base_publish (parent_sg_publish_data : Option PVal)
  | sg_create_version (code : String)
  | sg_upload (path : String)
deriving DecidableEq

inductive POut where
  | ok
  | retFalse
  | raised (msg : String)
deriving DecidableEq

structure PubResult where
  outcome : POut
  item : Item
  parent_properties : Fields
  events : List Ev

/-- Oracles for everything `publish` observes or drives outside the hook.
The filesystem is sampled before (`isfile_pre`) and after (`isfile_post`) the
render subprocess; `call_ret` is the exit code `subprocess.call` returns,
which the source reads and discards. -/
structure PubEnv where
  platform : String
  normpath : String → String
  mkdtemp_fbx : String
  mkdtemp_proj : String
  home_parent : String
  hour : Nat
  minute : Nat
  second : Nat
  local_path_of : PVal → Option String
  fbx_export_ok : Bool
  script_path : String
  importer_path : String
  hook_temp_folder : Option String
  isfile_pre : String → Bool
  remove_ok : Bool
  isfile_post : String → Bool
  base_publish_raises : Bool
  base_publish_data : PVal
  version_id : Nat
  call_ret : List String → Int
  environ : List (String × String)

structure RenderOut where
  ret : Bool × Option String
  events : List Ev

/-- `_get_unreal_base_command`: special-case a macOS `.app` bundle, else the
bare executable followed by the project. -/
def get_unreal_base_command (platform : String)
    (unreal_exec_path unreal_project_path : String) : List String :=
  if platform = "darwin" ∧ (pySplitext unreal_exec_path).2 = ".app" then
    ["open", "-W", "-n", "-a", unreal_exec_path, "--args", unreal_project_path]
  else
    [unreal_exec_path, unreal_project_path]

/-- The Sequencer render command line (`cmdline_args` in the source). -/
def sequencerCmdArgs (env : PubEnv)
    (unreal_exec_path unreal_project_path unreal_map_path sequence_path output_path : String) :
    List String :=
  let output_folder := (pySplitPath output_path).1
  let output_file := (pySplitPath output_path).2
  let movie_name := (pySplitext output_file).1
  get_unreal_base_command env.platform unreal_exec_path unreal_project_path ++
    [unreal_map_path,
     "-LevelSequence=" ++ sequence_path,
     "-MovieFolder=\"" ++ output_folder ++ "\"",
     "-MovieName=" ++ movie_name,
     "-game",
     "-MovieSceneCaptureType=/Script/MovieSceneCapture.AutomatedLevelSequenceCapture",
     "-ResX=1280",
     "-ResY=720",
     "-ForceRes",
     "-Windowed",
     "-MovieCinematicMode=yes",
     "-MovieFormat=Video",
     "-MovieFrameRate=24",
     "-MovieQuality=75",
     "-MovieWarmUpFrames=30",
     "-NoTextureStreaming",
     "-NoLoadingScreen",
     "-NoScreenMessages"]

/-- `_unreal_render_movie_with_sequencer`: delete a pre-existing output file
first (returning `(False, None)` on an `OSError` without launching anything),
then shell out to the Level Sequencer render and report whether the output
file exists afterwards. -/
def unreal_render_movie_with_sequencer (env : PubEnv)
    (unreal_exec_path unreal_project_path unreal_map_path sequence_path output_path : String) :
    RenderOut :=
  let render : List Ev → RenderOut := fun evs =>
    let cmdline_args := sequencerCmdArgs env unreal_exec_path unreal_project_path
      unreal_map_path sequence_path output_path
    let _ret := env.call_ret cmdline_args
    { ret := (env.isfile_post output_path, some output_path),
      events := evs ++ [Ev.call cmdline_args []] }
  if env.isfile_pre output_path then
    if env.remove_ok then render [Ev.removeFile output_path]
    else { ret := (false, none), events := [Ev.removeFile output_path] }
  else render []

/-- `_unreal_render_movie_with_movie_render_queue`: shell out to the Movie
Render Queue with the fixed flag set and report whether the output file
exists afterwards. -/
def unreal_render_movie_with_movie_render_queue (env : PubEnv)
    (unreal_exec_path unreal_project_path manifest_path output_path : String) : RenderOut :=
  let cmdline_args := get_unreal_base_command env.platform unreal_exec_path
      unreal_project_path ++
    ["MoviePipelineEntryMap?game=/Script/MovieRenderPipelineCore.MoviePipelineGameMode",
     "-game",
     "-Multiprocess",
     "-NoLoadingScreen",
     "-FixedSeed",
     "-log",
     "-Unattended",
     "-messaging",
     "-SessionName=\"Maya Turntable Movie Render\"",
     "-nohmd",
     "-windowed",
     "-ResX=1280",
     "-ResY=720",
     "-dpcvars=" ++ joinWith ","
       ["sg.ViewDistanceQuality=4",
        "sg.AntiAliasingQuality=4",
        "sg.ShadowQuality=4",
        "sg.PostProcessQuality=4",
        "sg.TextureQuality=4",
        "sg.EffectsQuality=4",
        "sg.FoliageQuality=4",
        "sg.ShadingQuality=4",
        "r.TextureStreaming=0",
        "r.ForceLOD=0",
        "r.SkeletalMeshLODBias=-10",
        "r.ParticleLODBias=-10",
        "foliage.DitheredLOD=0",
        "foliage.ForceLOD=0",
        "r.Shadow.DistanceScale=10",
        "r.ShadowQuality=5",
        "r.Shadow.RadiusThreshold=0.001000",
        "r.ViewDistanceScale=50",
        "r.D3D12.GPUTimeout=0",
        "a.URO.Enable=0"],
     "-execcmds=r.HLOD 0",
     "-MoviePipelineConfig=\"" ++ manifest_path ++ "\""]
  let _ret := env.call_ret cmdline_args
  { ret := (env.isfile_post output_path, some output_path),
    events := [Ev.call cmdline_args []] }

/-- The queue-manifest location probed inside the copied project. -/
def manifestFullPath (temp_project_dir : String) : String :=
  posixJoin (posixJoin temp_project_dir "Saved") "MovieRenderPipeline/QueueManifest.utxt"

/-- The movie path `publish` finally checks: rewritten `.avi` → `.mov` when
the Movie Render Queue manifest is present. -/
def finalPublishPath (env : PubEnv) (temp_project_dir publish_path : String) : String :=
  if env.isfile_pre (manifestFullPath temp_project_dir) then subAviToMov publish_path
  else publish_path

/-- Value of a string-valued dict entry (`None` when missing; the values the
source reads here are always strings). -/
def getStr (m : Fields) (k : String) : Option String :=
  match flook m k with
  | some (PVal.str s) => some s
  | _ => none

/-- `item.parent.properties.get("sg_fbx_publish_data")` followed by the
truthiness test `if published_fbx:`. -/
def reusedFbx (parent0 : Fields) : Option PVal :=
  match flook parent0 "sg_fbx_publish_data" with
  | some v => if pvalTruthy v then some v else none
  | none => none

/-- Step 5 of `publish`, after the base publish succeeded: mirror the item's
publish data into its local properties (the attribute access raises when it
is absent), create the review Version, stash it locally, and upload the
rendered movie (resolving its local path may raise). -/
def publishVersion (env : PubEnv) (item : Item) (parent : Fields)
    (movie_name : String) (evs : List Ev) : PubResult :=
  match flook item.properties "sg_publish_data" with
  | none =>
    { outcome := POut.raised "AttributeError: sg_publish_data", item := item,
      parent_properties := parent, events := evs }
  | some sgpd =>
    let locals1 := fset item.local_properties "sg_publish_data" sgpd
    let item := { item with local_properties := locals1 }
    let evs := evs ++ [Ev.sg_create_version movie_name]
    let locals2 := fset item.local_properties "sg_version_data" (PVal.obj env.version_id)
    let item := { item with local_properties := locals2 }
    match env.local_path_of sgpd with
    | none =>
      { outcome := POut.raised "Unable to get a local path", item := item,
        parent_properties := parent, events := evs }
    | some upload_path =>
      { outcome := POut.ok, item := item, parent_properties := parent,
        events := evs ++ [Ev.sg_upload upload_path] }

/-- Step 4b of `publish`: delegate to the base publish, swapping the parent's
shared `sg_publish_data` in and out around the call when a published FBX was
reused — restoring it (`finally`) even when the base call raises — then run
`publishVersion`. -/
def publishRegister (env : PubEnv) (item : Item) (parent : Fields)
    (published_fbx : Option PVal) (movie_name : String) (evs : List Ev) : PubResult :=
  match published_fbx with
  | some pf =>
    let parent_saved := flook parent "sg_publish_data"
    let parent1 := fset parent "sg_publish_data" pf
    let evs := evs ++ [Ev.base_publish (flook parent1 "sg_publish_data")]
    let parent2 :=
      match parent_saved with
      | some v => fset parent1 "sg_publish_data" v
      | none => fdel parent1 "sg_publish_data"
    if env.base_publish_raises then
      { outcome := POut.raised "base publish raised", item := item,
        parent_properties := parent2, events := evs }
    else
      let props1 := fset item.properties "sg_publish_data" env.base_publish_data
      let item := { item with properties := props1 }
      publishVersion env item parent2 movie_name evs
  | none =>
    let evs := evs ++ [Ev.base_publish (flook parent "sg_publish_data")]
    if env.base_publish_raises then
      { outcome := POut.raised "base publish raised", item := item,
        parent_properties := parent, events := evs }
    else
      let props1 := fset item.properties "sg_publish_data" env.base_publish_data
      let item := { item with properties := props1 }
      publishVersion env item parent movie_name evs

/-- Steps 2–5 of `publish`, after the FBX is in hand: copy the Unreal project
to a temp directory, run the setup script in Unreal (passing the dynamic
values in environment variables), render via the Movie Render Queue when its
manifest exists or via the Level Sequencer otherwise, raise when the expected
movie is absent, then register and upload. -/
def publishRender (env : PubEnv) (item : Item) (parent : Fields)
    (published_fbx : Option PVal)
    (unreal_exec_path unreal_project_path turntable_map_path sequence_path
      turntable_assets_path publish_path fbx_output_path : String)
    (evs : List Ev) : PubResult :=
  match appDataRebase env.home_parent env.mkdtemp_proj with
  | none =>
    { outcome := POut.raised "It doesn't return path in appdata", item := item,
      parent_properties := parent, events := evs }
  | some temp_dir =>
    let project_path := (pySplitPath unreal_project_path).1
    let project_file := (pySplitPath unreal_project_path).2
    let project_folder := basenamePosix project_path
    let temp_project_dir := posixJoin temp_dir project_folder
    let temp_project_path := posixJoin temp_project_dir project_file
    let evs := evs ++ [Ev.copytree project_path temp_project_dir]
    let scriptStep : Except PubResult (String × List Ev) :=
      if containsSpace env.script_path then
        match env.hook_temp_folder with
        | none =>
          let r : PubResult :=
            { outcome := POut.raised "AttributeError: temp_folder", item := item,
              parent_properties := parent, events := evs }
          Except.error r
        | some tf =>
          let script_destination := posixJoin tf "unreal_setup_turntable.py"
          let importer_destination := posixJoin tf "unreal_importer.py"
          Except.ok (script_destination,
            evs ++ [Ev.copy env.script_path script_destination,
              Ev.copy env.importer_path importer_destination])
      else Except.ok (env.script_path, evs)
    match scriptStep with
    | Except.error r => r
    | Except.ok (script_path0, evs) =>
      let script_path := pyReplace script_path0 "\\" "/"
      let temp_project_path :=
        if containsSpace temp_project_path then "\"" ++ temp_project_path ++ "\""
        else temp_project_path
      let extra_env := [("UNREAL_SG_FBX_OUTPUT_PATH", fbx_output_path),
        ("UNREAL_SG_ASSETS_PATH", turntable_assets_path),
        ("UNREAL_SG_MAP_PATH", turntable_map_path),
        ("UNREAL_SG_SEQUENCE_PATH", sequence_path),
        ("UNREAL_SG_MOVIE_OUTPUT_PATH", publish_path)]
      let run_env := env.environ ++ extra_env
      let setup_args := get_unreal_base_command env.platform unreal_exec_path
          temp_project_path ++ ["-ExecutePythonScript=\"" ++ script_path ++ "\""]
      let _ret := env.call_ret setup_args
      let evs := evs ++ [Ev.call setup_args run_env]
      let destination_folder := (pySplitPath publish_path).1
      let movie_name := (pySplitext ((pySplitPath publish_path).2)).1
      let evs := evs ++ [Ev.ensure_folder destination_folder]
      let manifest_path := "MovieRenderPipeline/QueueManifest.utxt"
      let manifest_full_path := manifestFullPath temp_project_dir
      let afterRender : Item → String → List Ev → PubResult := fun item publish_path evs =>
        if env.isfile_post publish_path = false then
          { outcome := POut.raised ("Expected file " ++ publish_path ++ " was not generated"),
            item := item, parent_properties := parent, events := evs }
        else
          publishRegister env item parent published_fbx movie_name evs
      if env.isfile_pre manifest_full_path then
        let publish_path := subAviToMov publish_path
        let locals1 := fset item.local_properties "publish_path" (PVal.str publish_path)
        let item := { item with local_properties := locals1 }
        let r := unreal_render_movie_with_movie_render_queue env unreal_exec_path
          temp_project_path manifest_path publish_path
        afterRender item publish_path (evs ++ r.events)
      else
        let r := unreal_render_movie_with_sequencer env unreal_exec_path
          temp_project_path turntable_map_path sequence_path publish_path
        afterRender item publish_path (evs ++ r.events)

/-- `publish` of the publish plugin.  `parent0` is `item.parent.properties`.
The base plugin's `get_publish_path` is modelled from the spec: it returns the
publish path staged on the item during validate. -/
def publish (env : PubEnv) (item : Item) (parent0 : Fields) : PubResult :=
  match getStr item.properties "unreal_exec_path", getStr item.properties "unreal_project_path",
      getStr item.properties "turntable_map_path", getStr item.properties "sequence_path",
      getStr item.properties "turntable_assets_path",
      getStr item.local_properties "publish_path" with
  | some unreal_exec_path, some unreal_project_path, some turntable_map_path,
      some sequence_path, some turntable_assets_path, some publish_path0 =>
    let publish_path := env.normpath publish_path0
    match appDataRebase env.home_parent env.mkdtemp_fbx with
    | none =>
      { outcome := POut.raised "The temp_unreal_shotgun doesn't contains appdata folder",
        item := item, parent_properties := parent0, events := [] }
    | some temp_folder =>
      let locals1 := fset item.local_properties "temp_folder" (PVal.str temp_folder)
      let item := { item with local_properties := locals1 }
      let fbx_folder := temp_folder
      match getStr item.properties "path" with
      | none =>
        { outcome := POut.raised "KeyError: path", item := item,
          parent_properties := parent0, events := [] }
      | some work_path0 =>
        let work_path := env.normpath work_path0
        let work_name := (pySplitext (basenamePosix work_path)).1
        let work_name := subNonWord work_name
        let timestamp := toString env.hour ++ toString env.minute ++ toString env.second
        match reusedFbx parent0 with
        | some pf =>
          match env.local_path_of pf with
          | none =>
            { outcome := POut.raised "Unable to get a local path", item := item,
              parent_properties := parent0, events := [] }
          | some fbx_published_path =>
            if hasNonWord (pySplitext fbx_published_path).1 then
              let fbx_name := work_name ++ "_" ++ timestamp ++ "_turntable.fbx"
              let fbx_output_path := posixJoin fbx_folder fbx_name
              publishRender env item parent0 (some pf) unreal_exec_path
                unreal_project_path turntable_map_path sequence_path turntable_assets_path
                publish_path fbx_output_path [Ev.copy fbx_published_path fbx_output_path]
            else
              publishRender env item parent0 (some pf) unreal_exec_path
                unreal_project_path turntable_map_path sequence_path turntable_assets_path
                publish_path fbx_published_path []
        | none =>
          let fbx_name := work_name ++ "_" ++ timestamp ++ "_turntable.fbx"
          let fbx_output_path := posixJoin fbx_folder fbx_name
          if env.fbx_export_ok = false then
            { outcome := POut.retFalse, item := item, parent_properties := parent0,
              events := [Ev.fbx_export fbx_output_path] }
          else
            let props1 := fset item.properties "temp_fbx_path" (PVal.str fbx_output_path)
            let item := { item with properties := props1 }
            publishRender env item parent0 none unreal_exec_path
              unreal_project_path turntable_map_path sequence_path turntable_assets_path
              publish_path fbx_output_path [Ev.fbx_export fbx_output_path]
  | _, _, _, _, _, _ =>
    { outcome := POut.raised "KeyError", item := item, parent_properties := parent0,
      events := [] }

/-! ## Claims on the renderers and publish -/

/-- C10: whenever `_unreal_render_movie_with_sequencer` finds a file at the
output path, it deletes that file before the render subprocess is launched
(the remove precedes the single subprocess call); and when the deletion fails
with an OSError it returns `(False, None)` without invoking the renderer at
all. -/
theorem sequencer_deletes_existing_output_first (env : PubEnv)
    (e p m s o : String) :
    (env.isfile_pre o = true → env.remove_ok = true →
      (unreal_render_movie_with_sequencer env e p m s o).events =
        [Ev.removeFile o, Ev.call (sequencerCmdArgs env e p m s o) []]) ∧
    (env.isfile_pre o = true → env.remove_ok = false →
      (unreal_render_movie_with_sequencer env e p m s o).ret = (false, none) ∧
      (unreal_render_movie_with_sequencer env e p m s o).events = [Ev.removeFile o]) := by
  constructor
  · intro h1 h2
    rw [unreal_render_movie_with_sequencer]
    dsimp only
    rw [if_pos h1, if_pos h2]
    rfl
  · intro h1 h2
    rw [unreal_render_movie_with_sequencer]
    dsimp only
    rw [if_pos h1, if_neg (by simp [h2])]
    exact ⟨rfl, rfl⟩

/-! Parent-bag preservation through the registration step. -/

theorem publishVersion_parent (env : PubEnv) (item : Item) (parent : Fields)
    (movie_name : String) (evs : List Ev) :
    ∀ k, flook (publishVersion env item parent movie_name evs).parent_properties k =
      flook parent k := by
  intro k
  rw [publishVersion]
  split
  · rfl
  · dsimp only
    split
    · rfl
    · rfl

theorem publishRegister_parent (env : PubEnv) (item : Item) (parent : Fields)
    (published_fbx : Option PVal) (movie_name : String) (evs : List Ev) :
    ∀ k, flook (publishRegister env item parent published_fbx movie_name
      evs).parent_properties k = flook parent k := by
  intro k
  rcases published_fbx with _ | pf <;> rw [publishRegister]
  · dsimp only
    split
    · rfl
    · exact publishVersion_parent env _ parent movie_name _ k
  · dsimp only
    have hrestore : ∀ m2, flook (match flook parent "sg_publish_data" with
        | some v => fset (fset parent "sg_publish_data" m2) "sg_publish_data" v
        | none => fdel (fset parent "sg_publish_data" m2) "sg_publish_data") k =
        flook parent k := by
      intro m2
      by_cases hk : k = "sg_publish_data"
      · subst hk
        split
        · next v hv => rw [flook_fset_self, hv]
        · next hv => rw [flook_fdel_self, hv]
      · split
        · rw [flook_fset_ne _ _ (fun h => hk h.symm), flook_fset_ne _ _ (fun h => hk h.symm)]
        · rw [flook_fdel_ne _ (fun h => hk h.symm), flook_fset_ne _ _ (fun h => hk h.symm)]
    split
    · exact hrestore pf
    · rw [publishVersion_parent]
      exact hrestore pf

theorem publishRender_parent (env : PubEnv) (item : Item) (parent : Fields)
    (published_fbx : Option PVal)
    (ep pp mp sp ap pub fbx : String) (evs : List Ev) :
    ∀ k, flook (publishRender env item parent published_fbx ep pp mp sp ap pub fbx
      evs).parent_properties k = flook parent k := by
  intro k
  rw [publishRender]
  split
  · rfl
  · dsimp only
    split
    · next r heq =>
      split at heq
      · split at heq
        · injection heq with heq2
          rw [← heq2]
        · simp at heq
      · simp at heq
    · next sp2 evs2 heq =>
      split
      · split
        · rfl
        · exact publishRegister_parent env _ parent published_fbx _ _ k
      · split
        · rfl
        · exact publishRegister_parent env _ parent published_fbx _ _ k

/-- C5 first part, unconditional: whatever path `publish` takes — including a
raising base publish, a failed render or an exception later — the parent
item's property bag answers every lookup exactly as it did before the call. -/
theorem publish_parent_lookup (env : PubEnv) (item : Item) (parent0 : Fields) :
    ∀ k, flook (publish env item parent0).parent_properties k = flook parent0 k := by
  intro k
  rw [publish]
  split
  · (try dsimp only)
    split
    · rfl
    · (try dsimp only)
      split
      · rfl
      · (try dsimp only)
        split
        · split
          · rfl
          · split
            · exact publishRender_parent env _ parent0 _ _ _ _ _ _ _ _ _ k
            · exact publishRender_parent env _ parent0 _ _ _ _ _ _ _ _ _ k
        · split
          · rfl
          · exact publishRender_parent env _ parent0 _ _ _ _ _ _ _ _ _ k
  · rfl

/-! Outcome and event lemmas for the registration step. -/

theorem publishVersion_ok (env : PubEnv) (it : Item) (par : Fields)
    (movie_name : String) (es : List Ev) (up : String)
    (h13 : env.local_path_of env.base_publish_data = some up) :
    (publishVersion env
      { it with properties := fset it.properties "sg_publish_data" env.base_publish_data }
      par movie_name es).outcome = POut.ok := by
  rw [publishVersion]
  dsimp only
  rw [flook_fset_self]
  dsimp only
  rw [h13]

theorem publishVersion_events_mono (env : PubEnv) (it : Item) (par : Fields)
    (movie_name : String) (es : List Ev) (e : Ev) (he : e ∈ es) :
    e ∈ (publishVersion env it par movie_name es).events := by
  rw [publishVersion]
  split
  · exact he
  · dsimp only
    split
    · simp [he]
    · simp [he]

theorem publishRegister_ok (env : PubEnv) (item : Item) (parent : Fields)
    (published_fbx : Option PVal) (movie_name : String) (evs : List Ev) (up : String)
    (h12 : env.base_publish_raises = false)
    (h13 : env.local_path_of env.base_publish_data = some up) :
    (publishRegister env item parent published_fbx movie_name evs).outcome = POut.ok := by
  rcases published_fbx with _ | pf <;> rw [publishRegister] <;> dsimp only <;>
    rw [if_neg (by simp [h12])] <;> exact publishVersion_ok env item _ movie_name _ up h13

theorem publishRegister_base_event (env : PubEnv) (item : Item) (parent : Fields)
    (pf : PVal) (movie_name : String) (evs : List Ev) :
    Ev.base_publish (some pf) ∈
      (publishRegister env item parent (some pf) movie_name evs).events := by
  rw [publishRegister]
  dsimp only
  rw [flook_fset_self]
  split
  · simp
  · exact publishVersion_events_mono env _ _ movie_name _ _ (by simp)

/-- The render/check core of C4 at the `publishRender` level: with a sane
temp layout and no later failure, the raise happens exactly when the final
movie file is absent. -/
theorem publishRender_raises_iff_absent (env : PubEnv) (item : Item) (parent : Fields)
    (published_fbx : Option PVal) (ep pp mp sp ap pub fbx : String) (evs : List Ev)
    (td up : String)
    (h10 : appDataRebase env.home_parent env.mkdtemp_proj = some td)
    (h11 : containsSpace env.script_path = false)
    (h12 : env.base_publish_raises = false)
    (h13 : env.local_path_of env.base_publish_data = some up) :
    ((publishRender env item parent published_fbx ep pp mp sp ap pub fbx evs).outcome =
        POut.raised ("Expected file " ++
          finalPublishPath env (posixJoin td (basenamePosix (pySplitPath pp).1)) pub ++
          " was not generated")
      ↔ env.isfile_post
          (finalPublishPath env (posixJoin td (basenamePosix (pySplitPath pp).1)) pub)
          = false) := by
  rw [publishRender, h10]
  dsimp only
  rw [if_neg (by simp [h11])]
  dsimp only
  by_cases hman : env.isfile_pre
      (manifestFullPath (posixJoin td (basenamePosix (pySplitPath pp).1))) = true
  · rw [if_pos hman]
    (try dsimp only)
    rw [finalPublishPath, if_pos hman]
    by_cases habs : env.isfile_post (subAviToMov pub) = false
    · rw [if_pos habs]
      simp [habs]
    · rw [if_neg habs]
      rw [publishRegister_ok env _ parent published_fbx _ _ up h12 h13]
      simp [habs]
  · rw [if_neg hman]
    (try dsimp only)
    rw [finalPublishPath, if_neg hman]
    by_cases habs : env.isfile_post pub = false
    · rw [if_pos habs]
      simp [habs]
    · rw [if_neg habs]
      rw [publishRegister_ok env _ parent published_fbx _ _ up h12 h13]
      simp [habs]

theorem publishRender_base_event (env : PubEnv) (item : Item) (parent : Fields)
    (pf : PVal) (ep pp mp sp ap pub fbx : String) (evs : List Ev) (td : String)
    (h10 : appDataRebase env.home_parent env.mkdtemp_proj = some td)
    (h11 : containsSpace env.script_path = false)
    (hmov : env.isfile_post
      (finalPublishPath env (posixJoin td (basenamePosix (pySplitPath pp).1)) pub) = true) :
    Ev.base_publish (some pf) ∈
      (publishRender env item parent (some pf) ep pp mp sp ap pub fbx evs).events := by
  rw [publishRender, h10]
  dsimp only
  rw [if_neg (by simp [h11])]
  dsimp only
  by_cases hman : env.isfile_pre
      (manifestFullPath (posixJoin td (basenamePosix (pySplitPath pp).1))) = true
  · rw [if_pos hman]
    (try dsimp only)
    rw [finalPublishPath, if_pos hman] at hmov
    rw [if_neg (by simp [hmov])]
    exact publishRegister_base_event env _ parent pf _ _
  · rw [if_neg hman]
    (try dsimp only)
    rw [finalPublishPath, if_neg hman] at hmov
    rw [if_neg (by simp [hmov])]
    exact publishRegister_base_event env _ parent pf _ _

/-- C4: once a renderer was invoked, publish judges the render solely by the
existence of the expected movie file — it raises the fatal "Expected file …
was not generated" error exactly when the file is absent at the (possibly
`.avi`→`.mov` rewritten) publish path — and the renderer subprocess's exit
code is never examined: the whole result of publish is unchanged under any
reinterpretation of the exit-code oracle. -/
theorem publish_render_success_judged_by_file (env : PubEnv) (item : Item) (parent0 : Fields)
    (ep pp mp sp ap pub0 wp tf td up : String)
    (h1 : getStr item.properties "unreal_exec_path" = some ep)
    (h2 : getStr item.properties "unreal_project_path" = some pp)
    (h3 : getStr item.properties "turntable_map_path" = some mp)
    (h4 : getStr item.properties "sequence_path" = some sp)
    (h5 : getStr item.properties "turntable_assets_path" = some ap)
    (h6 : getStr item.local_properties "publish_path" = some pub0)
    (h7 : appDataRebase env.home_parent env.mkdtemp_fbx = some tf)
    (h8 : getStr item.properties "path" = some wp)
    (h9a : ∀ v, reusedFbx parent0 = some v → env.local_path_of v ≠ none)
    (h9b : env.fbx_export_ok = true)
    (h10 : appDataRebase env.home_parent env.mkdtemp_proj = some td)
    (h11 : containsSpace env.script_path = false)
    (h12 : env.base_publish_raises = false)
    (h13 : env.local_path_of env.base_publish_data = some up) :
    ((publish env item parent0).outcome =
        POut.raised ("Expected file " ++
          finalPublishPath env (posixJoin td (basenamePosix (pySplitPath pp).1))
            (env.normpath pub0) ++ " was not generated")
      ↔ env.isfile_post (finalPublishPath env
          (posixJoin td (basenamePosix (pySplitPath pp).1)) (env.normpath pub0)) = false) ∧
    (∀ cr, publish { env with call_ret := cr } item parent0 = publish env item parent0) := by
  constructor
  · rw [publish, h1, h2, h3, h4, h5, h6]
    dsimp only
    rw [h7]
    dsimp only
    rw [h8]
    dsimp only
    rcases hr : reusedFbx parent0 with _ | v
    · dsimp only
      rw [if_neg (by simp [h9b])]
      exact publishRender_raises_iff_absent env _ parent0 none ep pp mp sp ap _ _ _ td up
        h10 h11 h12 h13
    · dsimp only
      rcases hlv : env.local_path_of v with _ | path
      · exact absurd hlv (h9a v hr)
      · dsimp only
        by_cases hnw : hasNonWord (pySplitext path).1 = true
        · rw [if_pos hnw]
          exact publishRender_raises_iff_absent env _ parent0 (some v) ep pp mp sp ap _ _ _
            td up h10 h11 h12 h13
        · rw [if_neg hnw]
          exact publishRender_raises_iff_absent env _ parent0 (some v) ep pp mp sp ap _ _ _
            td up h10 h11 h12 h13
  · intro cr
    rfl

/-- C5: when publish reuses an already-published FBX, the base publish call
observes the parent's shared `sg_publish_data` temporarily set to that FBX,
and — whatever happens afterwards, including the base call raising — the
parent's property bag answers every lookup exactly as before the call (the
previous value is restored, or the key removed if the parent had none). -/
theorem publish_reused_fbx_saves_and_restores_parent (env : PubEnv) (item : Item)
    (parent0 : Fields) (ep pp mp sp ap pub0 wp tf td path : String) (pf : PVal)
    (h1 : getStr item.properties "unreal_exec_path" = some ep)
    (h2 : getStr item.properties "unreal_project_path" = some pp)
    (h3 : getStr item.properties "turntable_map_path" = some mp)
    (h4 : getStr item.properties "sequence_path" = some sp)
    (h5 : getStr item.properties "turntable_assets_path" = some ap)
    (h6 : getStr item.local_properties "publish_path" = some pub0)
    (h7 : appDataRebase env.home_parent env.mkdtemp_fbx = some tf)
    (h8 : getStr item.properties "path" = some wp)
    (hr : reusedFbx parent0 = some pf)
    (hlv : env.local_path_of pf = some path)
    (h10 : appDataRebase env.home_parent env.mkdtemp_proj = some td)
    (h11 : containsSpace env.script_path = false)
    (hmov : env.isfile_post (finalPublishPath env
      (posixJoin td (basenamePosix (pySplitPath pp).1)) (env.normpath pub0)) = true) :
    Ev.base_publish (some pf) ∈ (publish env item parent0).events ∧
    (∀ k, flook (publish env item parent0).parent_properties k = flook parent0 k) := by
  refine ⟨?_, publish_parent_lookup env item parent0⟩
  rw [publish, h1, h2, h3, h4, h5, h6]
  dsimp only
  rw [h7]
  dsimp only
  rw [h8]
  dsimp only
  rw [hr]
  dsimp only
  rw [hlv]
  dsimp only
  by_cases hnw : hasNonWord (pySplitext path).1 = true
  · rw [if_pos hnw]
    exact publishRender_base_event env _ parent0 pf ep pp mp sp ap _ _ _ td h10 h11 hmov
  · rw [if_neg hnw]
    exact publishRender_base_event env _ parent0 pf ep pp mp sp ap _ _ _ td h10 h11 hmov

/-! Concrete publish fixtures. -/

def pubEnvW : PubEnv :=
  { platform := "linux", normpath := fun s => s,
    mkdtemp_fbx := "/home/user/AppData/Local/Temp/tmpa1temp_unreal_shotgun",
    mkdtemp_proj := "/home/user/AppData/Local/Temp/tmpb2",
    home_parent := "/home", hour := 12, minute := 34, second := 56,
    local_path_of := fun _ => some "/publishes/asset.fbx",
    fbx_export_ok := true,
    script_path := "/hooks/unreal/unreal_setup_turntable.py",
    importer_path := "/hooks/unreal/unreal_importer.py",
    hook_temp_folder := none,
    isfile_pre := fun _ => false, remove_ok := true, isfile_post := fun _ => true,
    base_publish_raises := false, base_publish_data := PVal.obj 42, version_id := 99,
    call_ret := fun _ => 0, environ := [] }

def pubEnvPreW : PubEnv := { pubEnvW with isfile_pre := fun _ => true }

def itemPubW : Item :=
  { properties := [("unreal_exec_path", PVal.str "/opt/UE/UnrealEditor"),
      ("unreal_project_path", PVal.str "/proj/turntable/turntable.uproject"),
      ("turntable_map_path", PVal.str "/Game/turntable/level/turntable.umap"),
      ("sequence_path", PVal.str "/Game/turntable/seq"),
      ("turntable_assets_path", PVal.str "/Game/maya_turntable_assets"),
      ("path", PVal.str "/scenes/foo_v003.ma")],
    local_properties := [("publish_path", PVal.str "/publishes/foo_v003.mov")],
    work_template := none, publish_template := none }

def parentFbxW : Fields := [("sg_fbx_publish_data", PVal.obj 5)]

theorem sequencer_deletes_existing_output_first_witness :
    (pubEnvPreW.isfile_pre "/publishes/foo_v003.mov" = true ∧
     pubEnvPreW.remove_ok = true) ∧
    (unreal_render_movie_with_sequencer pubEnvPreW "/opt/UE/UnrealEditor"
        "/proj/turntable/turntable.uproject" "/Game/map" "/Game/seq"
        "/publishes/foo_v003.mov").events =
      [Ev.removeFile "/publishes/foo_v003.mov",
       Ev.call (sequencerCmdArgs pubEnvPreW "/opt/UE/UnrealEditor"
         "/proj/turntable/turntable.uproject" "/Game/map" "/Game/seq"
         "/publishes/foo_v003.mov") []] :=
  ⟨⟨rfl, rfl⟩,
    (sequencer_deletes_existing_output_first pubEnvPreW "/opt/UE/UnrealEditor"
      "/proj/turntable/turntable.uproject" "/Game/map" "/Game/seq"
      "/publishes/foo_v003.mov").1 rfl rfl⟩

theorem publish_render_success_judged_by_file_witness :
    (getStr itemPubW.local_properties "publish_path" = some "/publishes/foo_v003.mov" ∧
     appDataRebase pubEnvW.home_parent pubEnvW.mkdtemp_fbx =
       some "/home/AppData/Local/Temp/tmpa1temp_unreal_shotgun" ∧
     appDataRebase pubEnvW.home_parent pubEnvW.mkdtemp_proj =
       some "/home/AppData/Local/Temp/tmpb2" ∧
     pubEnvW.fbx_export_ok = true ∧
     containsSpace pubEnvW.script_path = false ∧
     pubEnvW.base_publish_raises = false) ∧
    (((publish pubEnvW itemPubW []).outcome =
        POut.raised ("Expected file " ++
          finalPublishPath pubEnvW (posixJoin "/home/AppData/Local/Temp/tmpb2"
            (basenamePosix (pySplitPath "/proj/turntable/turntable.uproject").1))
            (pubEnvW.normpath "/publishes/foo_v003.mov") ++ " was not generated")
      ↔ pubEnvW.isfile_post (finalPublishPath pubEnvW
          (posixJoin "/home/AppData/Local/Temp/tmpb2"
            (basenamePosix (pySplitPath "/proj/turntable/turntable.uproject").1))
          (pubEnvW.normpath "/publishes/foo_v003.mov")) = false) ∧
     (∀ cr, publish { pubEnvW with call_ret := cr } itemPubW [] =
        publish pubEnvW itemPubW [])) :=
  ⟨⟨by decide, by decide, by decide, rfl, by decide, rfl⟩,
    publish_render_success_judged_by_file pubEnvW itemPubW []
      "/opt/UE/UnrealEditor" "/proj/turntable/turntable.uproject"
      "/Game/turntable/level/turntable.umap" "/Game/turntable/seq"
      "/Game/maya_turntable_assets" "/publishes/foo_v003.mov" "/scenes/foo_v003.ma"
      "/home/AppData/Local/Temp/tmpa1temp_unreal_shotgun" "/home/AppData/Local/Temp/tmpb2"
      "/publishes/asset.fbx"
      (by decide) (by decide) (by decide) (by decide) (by decide) (by decide) (by decide)
      (by decide)
      (fun v hv => absurd hv (by simp [reusedFbx, flook]))
      rfl (by decide) (by decide) rfl rfl⟩

theorem publish_reused_fbx_saves_and_restores_parent_witness :
    (reusedFbx parentFbxW = some (PVal.obj 5) ∧
     pubEnvW.local_path_of (PVal.obj 5) = some "/publishes/asset.fbx" ∧
     pubEnvW.isfile_post (finalPublishPath pubEnvW
       (posixJoin "/home/AppData/Local/Temp/tmpb2"
         (basenamePosix (pySplitPath "/proj/turntable/turntable.uproject").1))
       (pubEnvW.normpath "/publishes/foo_v003.mov")) = true) ∧
    (Ev.base_publish (some (PVal.obj 5)) ∈ (publish pubEnvW itemPubW parentFbxW).events ∧
     (∀ k, flook (publish pubEnvW itemPubW parentFbxW).parent_properties k =
        flook parentFbxW k)) :=
  ⟨⟨by decide, rfl, rfl⟩,
    publish_reused_fbx_saves_and_restores_parent pubEnvW itemPubW parentFbxW
      "/opt/UE/UnrealEditor" "/proj/turntable/turntable.uproject"
      "/Game/turntable/level/turntable.umap" "/Game/turntable/seq"
      "/Game/maya_turntable_assets" "/publishes/foo_v003.mov" "/scenes/foo_v003.ma"
      "/home/AppData/Local/Temp/tmpa1temp_unreal_shotgun" "/home/AppData/Local/Temp/tmpb2"
      "/publishes/asset.fbx" (PVal.obj 5)
      (by decide) (by decide) (by decide) (by decide) (by decide) (by decide) (by decide)
      (by decide) (by decide) rfl (by decide) (by decide) rfl⟩

end Turntable
